import Mathlib

/-!
Verification of the `dev.py` development-environment CLI.

The Python source is shallowly embedded: pure string manipulation becomes
Lean functions on `String` / `List Char`; every external interaction
(subprocess results, file existence, user input) is an explicit oracle
passed in, and the observable behaviour of a command function is a pair of
an effect trace (`List Effect`) and its boolean return value.
-/

set_option maxRecDepth 4000

/-- Characters stripped by Python's `str.strip()` (ASCII whitespace set). -/
def isPyWS (c : Char) : Bool :=
  c = ' ' || c = '\t' || c = '\n' || c = '\r' || c = '\x0b' || c = '\x0c'

/-- List-level model of Python `str.strip()`: drop leading and trailing whitespace. -/
def pyStripL (l : List Char) : List Char :=
  ((l.dropWhile isPyWS).reverse.dropWhile isPyWS).reverse

/-- Python `s.strip()`. -/
def pyStrip (s : String) : String := ⟨pyStripL s.data⟩

/-- Python `s.lower()` (ASCII model). -/
def lowerStr (s : String) : String := ⟨s.data.map Char.toLower⟩

/-- Result of `run_command`: either a boolean (non-capturing mode or failure)
or the captured standard output (capturing mode). -/
inductive RunResult where
  | bool (b : Bool)
  | str (s : String)
deriving DecidableEq, Repr

/-- Outcome of one `subprocess.run` invocation, supplied as an oracle. -/
structure ProcOutcome where
  returncode : Int
  stdout : String
  stderr : String
deriving DecidableEq, Repr

/-- Python truthiness of a `run_command` result (`bool` truthiness / non-empty string). -/
def pyTruthy : RunResult → Bool
  | RunResult.bool b => b
  | RunResult.str s => s ≠ ""

/-- Python `str(result)` of a `run_command` result. -/
def pyStr : RunResult → String
  | RunResult.bool b => if b then "True" else "False"
  | RunResult.str s => s

/-- Embedding of `run_command(cmd, check, capture_output)` from dev.py.
Returns the result together with the list of error texts printed
(`print_error(e.stderr)` on an enforced capture failure with non-empty stderr).
In capturing mode a `CalledProcessError` (enforcement on, non-zero exit) is
caught and `False` is returned; otherwise `result.stdout.strip()` is returned.
In non-capturing mode the return value is `returncode == 0`. -/
def run_command (cmd : String) (check capture_output : Bool) (proc : ProcOutcome) :
    RunResult × List String :=
  if capture_output then
    if check && (proc.returncode != 0) then
      (RunResult.bool false, if proc.stderr ≠ "" then [proc.stderr] else [])
    else
      (RunResult.str (pyStrip proc.stdout), [])
  else
    if check && (proc.returncode != 0) then (RunResult.bool false, [])
    else (RunResult.bool (proc.returncode == 0), [])

/-- Head-character test: Python `s.startswith(c)` for a single character. -/
def startsWithChar (s : String) (c : Char) : Bool :=
  match s.data with
  | [] => false
  | a :: _ => a = c

/-- Last-character test: Python `s.endswith(c)` for a single character. -/
def endsWithChar (s : String) (c : Char) : Bool :=
  match s.data.getLast? with
  | some a => a = c
  | none => false

/-- Python `s[1:-1]`. -/
def sliceEnds (s : String) : String := ⟨(s.data.drop 1).dropLast⟩

/-- Quote stripping from `load_env_file`: remove one layer of surrounding
matching double or single quotes. -/
def stripQuotes (v : String) : String :=
  if startsWithChar v '"' && endsWithChar v '"' then sliceEnds v
  else if startsWithChar v '\'' && endsWithChar v '\'' then sliceEnds v
  else v

/-- Split a character list at the first occurrence of `c`
(Python `line.split(c, 1)` when `c` occurs). -/
def splitFirstL (c : Char) : List Char → List Char × List Char
  | [] => ([], [])
  | a :: rest =>
    if a = c then ([], rest)
    else
      let p := splitFirstL c rest
      (a :: p.1, p.2)

/-- Python dict assignment `env_vars[key] = value`, modelled as an append;
lookups take the last binding (last occurrence wins). -/
def envSet (m : List (String × String)) (k v : String) : List (String × String) :=
  m ++ [(k, v)]

/-- Python `env_vars.get(k, '')` over the append-list dict model. -/
def envGet (m : List (String × String)) (k : String) : String :=
  (((m.reverse.find? (fun p => p.1 == k)).map Prod.snd).getD "")

/-- Processing of a single line of the `.env` file in `load_env_file`. -/
def processLine (m : List (String × String)) (rawLine : String) : List (String × String) :=
  let line := pyStrip rawLine
  if line = "" || startsWithChar line '#' then m
  else if line.data.contains '=' then
    let p := splitFirstL '=' line.data
    let key := pyStrip ⟨p.1⟩
    let value := stripQuotes (pyStrip ⟨p.2⟩)
    envSet m key value
  else m

/-- Embedding of `load_env_file`: `fileExists` models `env_file.exists()`,
`lines` the lines of the file. A missing file yields the empty mapping. -/
def load_env_file (fileExists : Bool) (lines : List String) : List (String × String) :=
  if fileExists then lines.foldl processLine [] else []

/-- Python substring membership `needle in hay` on character lists. -/
def containsSub (hay needle : List Char) : Bool :=
  match hay with
  | [] => needle.isEmpty
  | _ :: rest => needle.isPrefixOf hay || containsSub rest needle

/-- Fixed placeholder indicator substrings from `is_placeholder_value`. -/
def placeholder_indicators : List String :=
  ["yourusername", "your-username", "placeholder", "example.com", "changeme", "change-me"]

/-- Embedding of `is_placeholder_value`: true on the empty value, or when the
lower-cased value contains one of the indicator substrings. -/
def is_placeholder_value (value : String) : Bool :=
  if value = "" then true
  else placeholder_indicators.any (fun ind => containsSub (lowerStr value).data ind.data)

/-- Model of pathlib's `/` operator: an empty right part is dropped, an
absolute right part replaces the left, otherwise the parts are joined with a
separator. -/
def pathJoin (a b : String) : String :=
  if b = "" then a
  else if startsWithChar b '/' then b
  else a ++ "/" ++ b

/-- Observable side effects of the command functions. `print` covers all the
coloured print helpers (presentation only), `ask` is an `input()` prompt,
`run` / `runCap` are `run_command` invocations (non-capturing / capturing),
`rmtree` is `shutil.rmtree`, `mkdirp` is `Path.mkdir(parents=True,
exist_ok=True)` and `sleep` is `time.sleep`. -/
inductive Effect where
  | print (s : String)
  | ask (prompt : String)
  | run (cmd : String)
  | runCap (cmd : String)
  | rmtree (path : String)
  | mkdirp (path : String)
  | sleep (secs : Nat)
deriving DecidableEq, Repr

/-- Outcome of the `shutil.rmtree` attempt in step 5 of `cmd_setup`. -/
inductive RmOutcome where
  | ok
  | permError
  | otherError (msg : String)
deriving DecidableEq, Repr

/-- One entry of `projects.yml`. Fields read with `.get(..., default)` in the
source are `Option`s; the remaining fields are accessed unconditionally. -/
structure ProjectConfig where
  name : String
  repo_env_var : String
  repo_subdir : Option String
  container : String
  compose_service : Option String
  related_services : Option (List String)
  setup_steps : Option (List String)
  directory : String
deriving DecidableEq, Repr

/-- Python `projects_config[project_name]` over the ordered registry
(`None` models `project_name not in projects_config`). -/
def lookupProj (cfg : List (String × ProjectConfig)) (k : String) : Option ProjectConfig :=
  (cfg.find? (fun p => p.1 == k)).map Prod.snd

/-- Oracles driving one `cmd_setup` invocation: the loaded registry, the
`.env` file, the two `input()` answers, the two `repo_dir.exists()` checks,
the `shutil.rmtree` outcome, and per-invocation subprocess outcomes for the
Docker cleanup, the clone, the readiness polls and the setup steps.  The
results of the best-effort `stop`/`start` calls are discarded by the source,
so they need no oracle. -/
structure SetupEnv where
  projectsConfig : Option (List (String × ProjectConfig))
  envFileExists : Bool
  envLines : List String
  urlAnswer : String
  confirmAnswer : String
  repoExists1 : Bool
  repoExists2 : Bool
  rmOutcome : RmOutcome
  cleanupProc : ProcOutcome
  cloneProc : ProcOutcome
  pollProc : Nat → ProcOutcome
  stepProc : Nat → ProcOutcome

/-- Shell command built for one setup step: `docker exec {container} {step}`. -/
def execCmd (container step : String) : String :=
  "docker exec " ++ (container ++ (" " ++ step))

/-- The `docker ps` readiness probe command for a container. -/
def psCheckCmd (container : String) : String :=
  "docker ps --filter name=" ++ container ++
    " --filter status=running --format \x27\x7b\x7b.Names\x7d\x7d\x27"

/-- The truthiness test `result and container_name in str(result)` applied to
a captured `run_command` result. -/
def poll_hit (r : RunResult) (container : String) : Bool :=
  pyTruthy r && containsSub (pyStr r).data container.data

/-- The containerized fallback removal command used on a `PermissionError`. -/
def cleanupCmdFor (mountPoint repoSubdir : String) : String :=
  "docker run --rm -v " ++
    (mountPoint ++ (":/cleanup alpine sh -c \x27rm -rf /cleanup/" ++ (repoSubdir ++ "\x27")))

/-- Fixed readiness-poll attempt budget (`max_retries` in `cmd_setup`). -/
def max_retries : Nat := 15

/-- The shared per-step loop of `cmd_setup` and `cmd_setup_steps`:
`for i, step in enumerate(setup_steps, 1)` running each step with
`run_command(f"docker exec {container} {step}", check=False)`, aborting at
the first failure. `i` is the 0-based position, `total` the full count. -/
def setup_steps_loop (container : String) (stepProc : Nat → ProcOutcome) (total : Nat) :
    Nat → List String → List Effect × Bool
  | _, [] => ([], true)
  | i, step :: rest =>
    let cmd := execCmd container step
    let r := (run_command cmd false false (stepProc i)).1
    let es0 := [Effect.print ("\n[" ++ toString (i + 1) ++ "/" ++ toString total ++
                  "] Running: " ++ step),
                Effect.run cmd]
    if pyTruthy r then
      let rec0 := setup_steps_loop container stepProc total (i + 1) rest
      (es0 ++ [Effect.print ("Step " ++ toString (i + 1) ++ "/" ++ toString total ++
         " completed")] ++ rec0.1, rec0.2)
    else
      (es0 ++ [Effect.print ("Setup step failed: " ++ step)], false)

/-- Step-execution phase of `cmd_setup` (everything after the readiness poll):
an empty step list is an immediate success, otherwise the loop runs and a
successful completion prints the closing messages. -/
def cmd_setup_steps_phase (display container : String) (stepProc : Nat → ProcOutcome)
    (steps : List String) : List Effect × Bool :=
  if steps.isEmpty then
    ([Effect.print (display ++ " setup complete (no setup steps defined)")], true)
  else
    let r := setup_steps_loop container stepProc steps.length 0 steps
    if r.2 then
      (Effect.print ("\nRunning " ++ toString steps.length ++ " setup step(s)...") ::
         r.1 ++ [Effect.print (display ++ " Setup Complete!"),
                 Effect.print "Project is ready"], true)
    else
      (Effect.print ("\nRunning " ++ toString steps.length ++ " setup step(s)...") :: r.1,
       false)

/-- The readiness-poll loop of `cmd_setup`: up to `fuel` attempts starting at
attempt index `i`, each running the `docker ps` probe through `run_command`
in capturing mode and sleeping 2 seconds on a miss. -/
def poll_loop (container checkCmd : String) (pollProc : Nat → ProcOutcome) :
    Nat → Nat → List Effect × Bool
  | _, 0 => ([], false)
  | i, fuel + 1 =>
    let rp := run_command checkCmd true true (pollProc i)
    let hitEs := Effect.runCap checkCmd :: rp.2.map Effect.print
    if poll_hit rp.1 container then
      (hitEs ++ [Effect.print ("Container " ++ container ++ " is running")], true)
    else
      let rec0 := poll_loop container checkCmd pollProc (i + 1) fuel
      (hitEs ++ [Effect.sleep 2] ++ rec0.1, rec0.2)

/-- Readiness-poll phase of `cmd_setup`: the waiting message, the poll loop
with the fixed attempt budget, and the timeout error when never ready. -/
def cmd_setup_poll_phase (container : String) (pollProc : Nat → ProcOutcome) :
    List Effect × Bool :=
  let r := poll_loop container (psCheckCmd container) pollProc 0 max_retries
  if r.2 then
    (Effect.print ("Waiting for " ++ container ++ " to be ready...") :: r.1, true)
  else
    (Effect.print ("Waiting for " ++ container ++ " to be ready...") :: r.1 ++
       [Effect.print ("Container " ++ container ++ " failed to start within " ++
          toString (max_retries * 2) ++ "s")], false)

/-- Destroy phase (step 5) of `cmd_setup`: when the repository subdirectory
exists it is removed with `shutil.rmtree`; a `PermissionError` falls back to
the containerized removal; any other failure aborts. -/
def cmd_setup_destroy_phase (repoDir mountPoint repoSubdir : String) (exists2 : Bool)
    (rm : RmOutcome) (cleanupProc : ProcOutcome) : List Effect × Bool :=
  if exists2 then
    let es0 := [Effect.print ("Removing repository directory: " ++ repoDir),
                Effect.rmtree repoDir]
    match rm with
    | RmOutcome.ok => (es0 ++ [Effect.print "Directory removed"], true)
    | RmOutcome.permError =>
      let cleanupCmd := cleanupCmdFor mountPoint repoSubdir
      let rc := (run_command cleanupCmd false false cleanupProc).1
      if pyTruthy rc then
        (es0 ++ [Effect.print "Permission error - cleaning up via Docker...",
                 Effect.run cleanupCmd,
                 Effect.print "Directory removed via Docker cleanup"], true)
      else
        (es0 ++ [Effect.print "Permission error - cleaning up via Docker...",
                 Effect.run cleanupCmd,
                 Effect.print "Failed to remove directory even with Docker cleanup"], false)
    | RmOutcome.otherError msg =>
      (es0 ++ [Effect.print ("Failed to remove directory: " ++ msg)], false)
  else ([], true)

/-- Steps 4-9 of `cmd_setup` (after the destructive-action confirmation):
stop services, destroy, recreate and clone, restart services, poll for
readiness, and run the setup steps. -/
def cmd_setup_execute (composeCmd projectName : String) (pc : ProjectConfig)
    (mountPoint repoDir repoUrl : String) (env : SetupEnv) : List Effect × Bool :=
  let repoSubdir := pc.repo_subdir.getD "app"
  let composeService := pc.compose_service.getD projectName
  let relatedServices := pc.related_services.getD []
  let setupSteps := pc.setup_steps.getD []
  let allServices := composeService :: relatedServices
  let stopEs := Effect.print ("Stopping containers: " ++ String.intercalate ", " allServices) ::
    allServices.map (fun s => Effect.run (composeCmd ++ " stop " ++ s))
  let d := cmd_setup_destroy_phase repoDir mountPoint repoSubdir env.repoExists2
    env.rmOutcome env.cleanupProc
  if !d.2 then (stopEs ++ d.1, false)
  else
    let cloneCmd := "git clone " ++ (repoUrl ++ (" " ++ repoDir))
    let rClone := (run_command cloneCmd true false env.cloneProc).1
    let cloneEs := [Effect.mkdirp mountPoint,
                    Effect.print ("\nCloning repository from: " ++ repoUrl),
                    Effect.run cloneCmd]
    if !pyTruthy rClone then
      (stopEs ++ d.1 ++ cloneEs ++ [Effect.print "Failed to clone repository"], false)
    else
      let startEs := Effect.print ("Repository cloned to " ++ repoDir) ::
        Effect.print ("\nStarting containers: " ++ String.intercalate ", " allServices) ::
        allServices.map (fun s => Effect.run (composeCmd ++ " start " ++ s))
      let p := cmd_setup_poll_phase pc.container env.pollProc
      if !p.2 then (stopEs ++ d.1 ++ cloneEs ++ startEs ++ p.1, false)
      else
        let st := cmd_setup_steps_phase pc.name pc.container env.stepProc setupSteps
        (stopEs ++ d.1 ++ cloneEs ++ startEs ++ p.1 ++ st.1, st.2)

/-- Step 3 of `cmd_setup`: when the repository subdirectory already exists
and the force flag is unset, ask for confirmation; any answer whose
stripped, lower-cased form is not `y` cancels the whole procedure. -/
def cmd_setup_with_url (composeCmd projectName : String) (force : Bool) (pc : ProjectConfig)
    (mountPoint repoDir repoUrl : String) (env : SetupEnv) : List Effect × Bool :=
  if env.repoExists1 && !force then
    let confEs := [Effect.print ("Repository directory already exists: " ++ repoDir),
      Effect.print "This will DELETE the repository and re-clone it. Any uncommitted changes will be lost.",
      Effect.ask "Continue? [y/N]: "]
    if lowerStr (pyStrip env.confirmAnswer) = "y" then
      let r := cmd_setup_execute composeCmd projectName pc mountPoint repoDir repoUrl env
      (confEs ++ r.1, r.2)
    else (confEs ++ [Effect.print "Setup cancelled"], false)
  else
    cmd_setup_execute composeCmd projectName pc mountPoint repoDir repoUrl env

/-- Step 2 of `cmd_setup`: resolve the repository URL from the environment
file, prompting interactively when it is unset or a placeholder, and failing
when the prompted answer strips to the empty string. -/
def cmd_setup_resolved (composeCmd projectRoot projectName : String) (force : Bool)
    (pc : ProjectConfig) (env : SetupEnv) : List Effect × Bool :=
  let repoSubdir := pc.repo_subdir.getD "app"
  let mountPoint := pathJoin projectRoot pc.directory
  let repoDir := pathJoin mountPoint repoSubdir
  let envVars := load_env_file env.envFileExists env.envLines
  let repoUrl0 := envGet envVars pc.repo_env_var
  let es0 := [Effect.print ("Setting up: " ++ pc.name)]
  if repoUrl0 = "" || is_placeholder_value repoUrl0 then
    let askEs := [Effect.print (pc.repo_env_var ++ " not set or contains placeholder value"),
      Effect.print ("Please enter the repository URL for " ++ pc.name),
      Effect.ask (pc.repo_env_var ++ " URL: ")]
    let url := pyStrip env.urlAnswer
    if url = "" then
      (es0 ++ askEs ++ [Effect.print "No repository URL provided",
         Effect.print ("Set " ++ pc.repo_env_var ++ " in .env file or provide URL when prompted")],
       false)
    else
      let r := cmd_setup_with_url composeCmd projectName force pc mountPoint repoDir url env
      (es0 ++ askEs ++ r.1, r.2)
  else
    let r := cmd_setup_with_url composeCmd projectName force pc mountPoint repoDir repoUrl0 env
    (es0 ++ r.1, r.2)

/-- Embedding of `cmd_setup`: header, registry lookup (with the
unknown-project failure listing the known identifiers), then the resolved
setup flow. -/
def cmd_setup (composeCmd projectRoot projectName : String) (force : Bool)
    (env : SetupEnv) : List Effect × Bool :=
  let hdr := Effect.print ("Project Setup: " ++ projectName)
  match env.projectsConfig with
  | none => ([hdr], false)
  | some cfgList =>
    match lookupProj cfgList projectName with
    | none =>
      ([hdr, Effect.print ("Unknown project: " ++ projectName),
        Effect.print ("Available projects: " ++
          String.intercalate ", " (cfgList.map Prod.fst))], false)
    | some pc =>
      let r := cmd_setup_resolved composeCmd projectRoot projectName force pc env
      (hdr :: r.1, r.2)

/-- Embedding of `cmd_setup_steps` (the reduced `setup-symfony` variant):
registry lookup, running-container check, then the shared step loop. -/
def cmd_setup_steps (projectsConfig : Option (List (String × ProjectConfig)))
    (projectName : String) (checkProc : ProcOutcome) (stepProc : Nat → ProcOutcome) :
    List Effect × Bool :=
  match projectsConfig with
  | none => ([], false)
  | some cfgList =>
    match lookupProj cfgList projectName with
    | none =>
      ([Effect.print ("Unknown project: " ++ projectName),
        Effect.print ("Available projects: " ++
          String.intercalate ", " (cfgList.map Prod.fst))], false)
    | some pc =>
      let steps := pc.setup_steps.getD []
      let checkCmd := psCheckCmd pc.container
      let rc := run_command checkCmd true true checkProc
      let es0 := Effect.print (pc.name ++ " Setup Steps") :: Effect.runCap checkCmd ::
        rc.2.map Effect.print
      if !poll_hit rc.1 pc.container then
        (es0 ++ [Effect.print ("Container \x27" ++ pc.container ++ "\x27 is not running"),
           Effect.print "Start containers with: dev start"], false)
      else if steps.isEmpty then
        (es0 ++ [Effect.print ("No setup steps defined for " ++ pc.name)], true)
      else
        let r := setup_steps_loop pc.container stepProc steps.length 0 steps
        if r.2 then
          (es0 ++ [Effect.print ("Running " ++ toString steps.length ++ " setup step(s)...")] ++
             r.1 ++ [Effect.print (pc.name ++ " Setup Complete!")], true)
        else
          (es0 ++ [Effect.print ("Running " ++ toString steps.length ++ " setup step(s)...")] ++
             r.1, false)

/-- The subcommands recognised by the `__main__` routing chain of dev.py. -/
def known_commands : List String :=
  ["init", "start", "stop", "restart", "down", "rebuild", "composer", "symfony", "npm",
   "shell", "mysql", "logs", "status", "aliases", "setup", "setup-symfony", "nuke", "up"]

/-- Process exit status of the `__main__` block: 1 when no command is given,
when Docker is unavailable (except for `aliases`), or when no compose
front-end is found; otherwise the matching command function is called, its
boolean result is discarded, and the script falls off the end of the file,
so the interpreter exits 0 regardless of `commandResult`. -/
def mainExitCode (command : Option String) (dockerOk composeAvailable : Bool)
    (commandResult : Bool) : Nat :=
  match command with
  | none => 1
  | some c =>
    if c != "aliases" && !dockerOk then 1
    else if !(c ∈ ["aliases"]) && !composeAvailable then 1
    else if c ∈ known_commands then 0
    else 1

/-! Basic helper lemmas about the string model. -/

/-- Two string concatenations differ when the left parts differ at a common
index. -/
theorem string_ne_of_append_get (a t b u : String) (i : Nat)
    (h1 : i < a.data.length) (h2 : i < b.data.length)
    (h3 : a.data[i]? ≠ b.data[i]?) : a ++ t ≠ b ++ u := by
  intro he
  have hd : (a ++ t).data = (b ++ u).data := by rw [he]
  rw [String.data_append, String.data_append] at hd
  apply h3
  calc a.data[i]? = (a.data ++ t.data)[i]? := (List.getElem?_append_left h1).symm
    _ = (b.data ++ u.data)[i]? := by rw [hd]
    _ = b.data[i]? := List.getElem?_append_left h2

/-- A concatenation whose right part differs from a fixed string at a common
position from the end is not that string. -/
theorem string_ne_of_append_rev (a t b : String) (i : Nat)
    (h1 : i < t.data.length)
    (h3 : t.data.reverse[i]? ≠ b.data.reverse[i]?) : a ++ t ≠ b := by
  intro he
  have hd : (a ++ t).data = b.data := by rw [he]
  rw [String.data_append] at hd
  apply h3
  have h1' : i < t.data.reverse.length := by rw [List.length_reverse]; exact h1
  calc t.data.reverse[i]?
      = (t.data.reverse ++ a.data.reverse)[i]? := (List.getElem?_append_left h1').symm
    _ = (a.data ++ t.data).reverse[i]? := by rw [List.reverse_append]
    _ = b.data.reverse[i]? := by rw [hd]

/-- Every string splits as whitespace, its stripped core, and whitespace. -/
theorem pyStrip_decomp (s : String) :
    ∃ a b : List Char, s.data = a ++ (pyStrip s).data ++ b ∧
      a.all isPyWS = true ∧ b.all isPyWS = true := by
  refine ⟨s.data.takeWhile isPyWS,
    ((s.data.dropWhile isPyWS).reverse.takeWhile isPyWS).reverse, ?_, ?_, ?_⟩
  · show s.data = _ ++ pyStripL s.data ++ _
    unfold pyStripL
    rw [List.append_assoc]
    conv_lhs => rw [← List.takeWhile_append_dropWhile isPyWS s.data]
    congr 1
    calc s.data.dropWhile isPyWS
        = (s.data.dropWhile isPyWS).reverse.reverse := (List.reverse_reverse _).symm
      _ = ((s.data.dropWhile isPyWS).reverse.takeWhile isPyWS ++
            (s.data.dropWhile isPyWS).reverse.dropWhile isPyWS).reverse := by
            rw [List.takeWhile_append_dropWhile]
      _ = ((s.data.dropWhile isPyWS).reverse.dropWhile isPyWS).reverse ++
            ((s.data.dropWhile isPyWS).reverse.takeWhile isPyWS).reverse := by
            rw [List.reverse_append]
  · rw [List.all_eq_true]
    intro x hx
    exact List.mem_takeWhile_imp hx
  · rw [List.all_eq_true]
    intro x hx
    exact List.mem_takeWhile_imp (List.mem_reverse.mp hx)

/-! Claim C1: exit status of the dispatcher. -/

/-- C1: the claim states that a dispatched command function returning `False`
makes the process exit non-zero, and that the process exits zero only on
success. The `__main__` block of dev.py discards the dispatched function's
return value and falls off the end of the script, so the exit status is 0
regardless of the reported result: here a failing and a succeeding `start`
invocation both exit 0. -/
theorem c1_dispatch_exit_code :
    mainExitCode (some "start") true true false = 0 ∧
    mainExitCode (some "start") true true true = 0 := by
  constructor <;> rfl

/-! Claims C6 and C10: the command runner. -/

/-- C6 counterexample: the claim says capturing mode trims exactly the
trailing whitespace, preserving leading whitespace. On a successful command
whose stdout is `" hi"`, dev.py's `result.stdout.strip()` returns `"hi"`,
not the claimed `" hi"`. -/
theorem c6_counterexample :
    (run_command "cat notes" true true ⟨0, " hi", ""⟩).1 = RunResult.str "hi" ∧
    RunResult.str "hi" ≠ RunResult.str " hi" := by
  constructor
  · rfl
  · decide

/-- C6 (amended): in capturing mode, a run with enforcement enabled and a
non-zero exit returns the failure indicator `False` and surfaces the error
text when present; otherwise the captured stdout is returned with leading
and trailing whitespace trimmed (the stdout splits as whitespace ++ result
++ whitespace). -/
theorem c6_run_command_capture (cmd : String) (check : Bool) (p : ProcOutcome) :
    (check = true → p.returncode ≠ 0 →
      (run_command cmd check true p).1 = RunResult.bool false ∧
      (p.stderr ≠ "" → (run_command cmd check true p).2 = [p.stderr])) ∧
    ((check = false ∨ p.returncode = 0) →
      ∃ a b : List Char,
        p.stdout.data = a ++ (pyStrip p.stdout).data ++ b ∧
        a.all isPyWS = true ∧ b.all isPyWS = true ∧
        (run_command cmd check true p).1 = RunResult.str (pyStrip p.stdout)) := by
  constructor
  · intro hc hrc
    constructor
    · simp [run_command, hc, hrc]
    · intro hs
      simp [run_command, hc, hrc, hs]
  · intro h
    obtain ⟨a, b, hab, ha, hb⟩ := pyStrip_decomp p.stdout
    refine ⟨a, b, hab, ha, hb, ?_⟩
    rcases h with h | h <;> simp [run_command, h]

/-- Witness for C6's amended theorem at concrete inputs: an enforced failure
with error text, and a successful capture of `"  hi "`. -/
theorem c6_run_command_capture_witness :
    ((run_command "ls" true true ⟨3, "o", "err"⟩).1 = RunResult.bool false ∧
     (run_command "ls" true true ⟨3, "o", "err"⟩).2 = ["err"]) ∧
    (∃ a b : List Char,
      ("  hi ".data = a ++ (pyStrip "  hi ").data ++ b ∧
       a.all isPyWS = true ∧ b.all isPyWS = true ∧
       (run_command "ls" false true ⟨0, "  hi ", ""⟩).1 =
         RunResult.str (pyStrip "  hi "))) := by
  constructor
  · have h := (c6_run_command_capture "ls" true ⟨3, "o", "err"⟩).1 rfl (by decide)
    exact ⟨h.1, h.2 (by decide)⟩
  · exact (c6_run_command_capture "ls" false ⟨0, "  hi ", ""⟩).2 (Or.inl rfl)

/-- C10: with enforcement disabled, capturing mode returns the trimmed
stdout regardless of the exit status (two runs with the same stdout are
indistinguishable), and under the truthiness test an enforced capture
failure (`False`) and a successful run with whitespace-only stdout (`""`)
are both falsy, hence indistinguishable. -/
theorem c10_capture_indistinguishable (cmd : String) (p q : ProcOutcome) :
    ((run_command cmd false true p).1 = RunResult.str (pyStrip p.stdout)) ∧
    (p.stdout = q.stdout →
      (run_command cmd false true p).1 = (run_command cmd false true q).1) ∧
    (p.returncode = 0 → pyStrip p.stdout = "" →
      pyTruthy (run_command cmd true true p).1 = false) ∧
    (q.returncode ≠ 0 → pyTruthy (run_command cmd true true q).1 = false) := by
  refine ⟨by simp [run_command], ?_, ?_, ?_⟩
  · intro h
    simp [run_command, h]
  · intro h0 hs
    simp [run_command, h0, pyTruthy, hs]
  · intro hq
    simp [run_command, hq, pyTruthy]

/-- Witness for C10 at concrete inputs: a non-zero exit in unenforced
capturing mode still yields the trimmed stdout, and the truthiness test
conflates an empty-output success with an enforced failure. -/
theorem c10_capture_indistinguishable_witness :
    ((run_command "git rev-parse" false true ⟨9, " out ", "e"⟩).1 =
       RunResult.str (pyStrip " out ")) ∧
    (pyTruthy (run_command "git rev-parse" true true ⟨0, "  ", ""⟩).1 = false) ∧
    (pyTruthy (run_command "git rev-parse" true true ⟨9, " out ", "e"⟩).1 = false) := by
  refine ⟨(c10_capture_indistinguishable "git rev-parse" ⟨9, " out ", "e"⟩ ⟨9, " out ", "e"⟩).1,
    (c10_capture_indistinguishable "git rev-parse" ⟨0, "  ", ""⟩ ⟨9, " out ", "e"⟩).2.2.1
      rfl (by decide),
    (c10_capture_indistinguishable "git rev-parse" ⟨0, "  ", ""⟩ ⟨9, " out ", "e"⟩).2.2.2
      (by decide)⟩

/-! Claim C8: the placeholder detector. -/

/-- C8: the placeholder detector returns true exactly when the value is
empty or its lower-cased form contains one of the six fixed indicator
substrings, and the realistic URL `git@host:org/repo.git` is classified as
non-placeholder. -/
theorem c8_placeholder_characterisation (v : String) :
    (is_placeholder_value v = true ↔
      (v = "" ∨
       containsSub (lowerStr v).data "yourusername".data = true ∨
       containsSub (lowerStr v).data "your-username".data = true ∨
       containsSub (lowerStr v).data "placeholder".data = true ∨
       containsSub (lowerStr v).data "example.com".data = true ∨
       containsSub (lowerStr v).data "changeme".data = true ∨
       containsSub (lowerStr v).data "change-me".data = true)) ∧
    is_placeholder_value "git@host:org/repo.git" = false := by
  constructor
  · by_cases hv : v = ""
    · simp [is_placeholder_value, hv]
    · simp only [is_placeholder_value, hv, if_false]
      simp [placeholder_indicators, hv]
  · decide

/-! Claim C2: ordered execution of setup steps. -/

/-- Commands passed to non-capturing `run_command` within a trace, in order. -/
def runCmds (es : List Effect) : List String :=
  es.filterMap (fun e =>
    match e with
    | Effect.run c => some c
    | _ => none)

/-- When every step's process exits zero, the loop succeeds and runs exactly
the configured commands in order. -/
theorem setup_steps_loop_ok (container : String) (stepProc : Nat → ProcOutcome) (total : Nat) :
    ∀ (steps : List String) (i : Nat),
      (∀ j, j < steps.length → (stepProc (i + j)).returncode = 0) →
      (setup_steps_loop container stepProc total i steps).2 = true ∧
      runCmds (setup_steps_loop container stepProc total i steps).1 =
        steps.map (execCmd container)
  | [], i, _ => by simp [setup_steps_loop, runCmds]
  | step :: rest, i, h => by
    have h0 : (stepProc i).returncode = 0 := by simpa using h 0 (by simp)
    have hpt : pyTruthy (run_command (execCmd container step) false false (stepProc i)).1
        = true := by
      simp [run_command, pyTruthy, h0]
    have ih := setup_steps_loop_ok container stepProc total rest (i + 1) (fun j hj => by
      have hj' : j + 1 < (step :: rest).length := by simpa using Nat.succ_lt_succ hj
      have h2 := h (j + 1) hj'
      have he : i + (j + 1) = i + 1 + j := by omega
      rw [he] at h2
      exact h2)
    refine ⟨?_, ?_⟩
    · simp only [setup_steps_loop, hpt, if_true]
      exact ih.1
    · simp only [setup_steps_loop, hpt, if_true]
      simp only [runCmds, List.filterMap_append] at ih ⊢
      simp [ih.2]

/-- When the first `k` steps succeed and step `k` fails, the loop stops
there: it returns failure, runs exactly the first `k + 1` commands in order,
and prints the failing step's number and command. -/
theorem setup_steps_loop_fail (container : String) (stepProc : Nat → ProcOutcome) (total : Nat) :
    ∀ (steps : List String) (i k : Nat) (hk : k < steps.length),
      (∀ j, j < k → (stepProc (i + j)).returncode = 0) →
      (stepProc (i + k)).returncode ≠ 0 →
      (setup_steps_loop container stepProc total i steps).2 = false ∧
      runCmds (setup_steps_loop container stepProc total i steps).1 =
        (steps.take (k + 1)).map (execCmd container) ∧
      Effect.print ("\n[" ++ toString (i + k + 1) ++ "/" ++ toString total ++
          "] Running: " ++ steps.get ⟨k, hk⟩) ∈
        (setup_steps_loop container stepProc total i steps).1 ∧
      Effect.print ("Setup step failed: " ++ steps.get ⟨k, hk⟩) ∈
        (setup_steps_loop container stepProc total i steps).1
  | [], _, k, hk, _, _ => by simp at hk
  | step :: rest, i, 0, hk, _, hfail => by
    have h0 : (stepProc i).returncode ≠ 0 := by simpa using hfail
    have hpt : pyTruthy (run_command (execCmd container step) false false (stepProc i)).1
        = false := by
      simp [run_command, pyTruthy, h0]
    refine ⟨?_, ?_, ?_, ?_⟩ <;>
      simp [setup_steps_loop, hpt, runCmds]
  | step :: rest, i, k + 1, hk, hpre, hfail => by
    have h0 : (stepProc i).returncode = 0 := by simpa using hpre 0 (by omega)
    have hpt : pyTruthy (run_command (execCmd container step) false false (stepProc i)).1
        = true := by
      simp [run_command, pyTruthy, h0]
    have hk' : k < rest.length := by simpa using Nat.lt_of_succ_lt_succ hk
    have ih := setup_steps_loop_fail container stepProc total rest (i + 1) k hk'
      (fun j hj => by
        have h2 := hpre (j + 1) (by omega)
        have he : i + (j + 1) = i + 1 + j := by omega
        rw [he] at h2
        exact h2)
      (by
        have he : i + (k + 1) = i + 1 + k := by omega
        rw [he] at hfail
        exact hfail)
    have hnum : i + 1 + k + 1 = i + (k + 1) + 1 := by omega
    refine ⟨?_, ?_, ?_, ?_⟩
    · simp only [setup_steps_loop, hpt, if_true]
      exact ih.1
    · simp only [setup_steps_loop, hpt, if_true]
      simp only [runCmds, List.filterMap_append] at ih ⊢
      simp [ih.2.1]
    · simp only [setup_steps_loop, hpt, if_true]
      have hmem := ih.2.2.1
      rw [hnum] at hmem
      exact List.mem_append_right _ hmem
    · simp only [setup_steps_loop, hpt, if_true]
      exact List.mem_append_right _ ih.2.2.2

/-- C2: the step-execution phase of the setup procedure runs the configured
steps strictly in order, each as `docker exec <container> <step>`; with an
empty step list it succeeds immediately; when all steps succeed it returns
success having run exactly the configured commands; the first failing step
aborts the remainder, returns failure, and the failing step's number and
command are reported. -/
theorem c2_setup_steps_ordered (display container : String)
    (stepProc : Nat → ProcOutcome) (steps : List String) :
    (cmd_setup_steps_phase display container stepProc []).2 = true ∧
    ((∀ j, j < steps.length → (stepProc j).returncode = 0) →
      (cmd_setup_steps_phase display container stepProc steps).2 = true ∧
      runCmds (cmd_setup_steps_phase display container stepProc steps).1 =
        steps.map (execCmd container)) ∧
    (∀ k (hk : k < steps.length),
      (∀ j, j < k → (stepProc j).returncode = 0) →
      (stepProc k).returncode ≠ 0 →
      (cmd_setup_steps_phase display container stepProc steps).2 = false ∧
      runCmds (cmd_setup_steps_phase display container stepProc steps).1 =
        (steps.take (k + 1)).map (execCmd container) ∧
      Effect.print ("\n[" ++ toString (k + 1) ++ "/" ++ toString steps.length ++
          "] Running: " ++ steps.get ⟨k, hk⟩) ∈
        (cmd_setup_steps_phase display container stepProc steps).1 ∧
      Effect.print ("Setup step failed: " ++ steps.get ⟨k, hk⟩) ∈
        (cmd_setup_steps_phase display container stepProc steps).1) := by
  refine ⟨by simp [cmd_setup_steps_phase], ?_, ?_⟩
  · intro hall
    by_cases hs : steps.isEmpty
    · rw [List.isEmpty_iff.mp hs]
      simp [cmd_setup_steps_phase, runCmds]
    · have hloop := setup_steps_loop_ok container stepProc steps.length steps 0
        (fun j hj => by simpa using hall j hj)
      have hs' : steps.isEmpty = false := by simpa using hs
      refine ⟨?_, ?_⟩
      · simp [cmd_setup_steps_phase, hs', hloop.1]
      · simp only [cmd_setup_steps_phase, hs', Bool.false_eq_true, if_false,
          hloop.1, if_true]
        simp only [runCmds, List.filterMap_cons, List.filterMap_append] at hloop ⊢
        simp [hloop.2]
  · intro k hk hpre hfail
    by_cases hs : steps.isEmpty
    · rw [List.isEmpty_iff.mp hs] at hk
      simp at hk
    · have hloop := setup_steps_loop_fail container stepProc steps.length steps 0
        k hk (fun j hj => by simpa using hpre j hj) (by simpa using hfail)
      have hs' : steps.isEmpty = false := by simpa using hs
      have hnum := hloop.2.2.1
      simp only [Nat.zero_add] at hnum
      refine ⟨?_, ?_, ?_, ?_⟩
      · simp [cmd_setup_steps_phase, hs', hloop.1]
      · simp only [cmd_setup_steps_phase, hs', Bool.false_eq_true, if_false,
          hloop.1, if_false]
        simp only [runCmds, List.filterMap_cons] at hloop ⊢
        simp [hloop.2.1]
      · simp only [cmd_setup_steps_phase, hs', Bool.false_eq_true, if_false,
          hloop.1, if_false]
        exact List.mem_cons_of_mem _ hnum
      · simp only [cmd_setup_steps_phase, hs', Bool.false_eq_true, if_false,
          hloop.1, if_false]
        exact List.mem_cons_of_mem _ hloop.2.2.2

/-- Witness for C2 at a concrete two-step configuration: all-success runs
both steps in order; a failure of the second step stops after it. -/
theorem c2_setup_steps_ordered_witness :
    (cmd_setup_steps_phase "Backend" "app-backend" (fun _ => ⟨0, "", ""⟩)
        ["migrate", "seed"]).2 = true ∧
    runCmds (cmd_setup_steps_phase "Backend" "app-backend" (fun _ => ⟨0, "", ""⟩)
        ["migrate", "seed"]).1 =
      ["migrate", "seed"].map (execCmd "app-backend") ∧
    (cmd_setup_steps_phase "Backend" "app-backend"
        (fun i => if i = 0 then ⟨0, "", ""⟩ else ⟨1, "", ""⟩) ["migrate", "seed"]).2 = false := by
  have hok := (c2_setup_steps_ordered "Backend" "app-backend" (fun _ => ⟨0, "", ""⟩)
    ["migrate", "seed"]).2.1 (by decide)
  have hfail := (c2_setup_steps_ordered "Backend" "app-backend"
    (fun i => if i = 0 then ⟨0, "", ""⟩ else ⟨1, "", ""⟩) ["migrate", "seed"]).2.2 1
    (by decide) (by decide) (by decide)
  exact ⟨hok.1, hok.2, hfail.1⟩

/-! Claim C7: the environment-file reader. -/

/-- Head of a `dropWhile` result never satisfies the dropped predicate. -/
theorem head_dropWhile_false {α : Type} (p : α → Bool) :
    ∀ (l : List α) {c : α}, (l.dropWhile p).head? = some c → p c = false
  | [], c, h => by simp at h
  | a :: t, c, h => by
    by_cases hp : p a
    · rw [List.dropWhile_cons, if_pos hp] at h
      exact head_dropWhile_false p t h
    · rw [List.dropWhile_cons, if_neg hp] at h
      simp at h
      rw [← h]
      simpa using hp

/-- The stripped form of a string starts with a non-whitespace character. -/
theorem pyStripL_head (l : List Char) {c : Char} (h : (pyStripL l).head? = some c) :
    isPyWS c = false := by
  unfold pyStripL at h
  rw [List.head?_reverse] at h
  obtain ⟨t, ht⟩ := List.dropWhile_suffix (l := (l.dropWhile isPyWS).reverse) isPyWS
  have hne : (l.dropWhile isPyWS).reverse.dropWhile isPyWS ≠ [] := by
    intro h0
    rw [h0] at h
    simp at h
  have hlast : ((l.dropWhile isPyWS).reverse).getLast? = some c := by
    rw [← ht, List.getLast?_append, h]
    rfl
  rw [List.getLast?_reverse] at hlast
  exact head_dropWhile_false isPyWS _ hlast

/-- The stripped form of a string ends with a non-whitespace character. -/
theorem pyStripL_last (l : List Char) {c : Char} (h : (pyStripL l).getLast? = some c) :
    isPyWS c = false := by
  unfold pyStripL at h
  rw [List.getLast?_reverse] at h
  exact head_dropWhile_false isPyWS _ h

/-- A list whose ends survive `dropWhile` on both sides is fixed by stripping. -/
theorem pyStripL_fix (l : List Char) (h1 : l.dropWhile isPyWS = l)
    (h2 : l.reverse.dropWhile isPyWS = l.reverse) : pyStripL l = l := by
  unfold pyStripL
  rw [h1, h2, List.reverse_reverse]

/-- Stripping only removes characters: the result is a sublist of the input. -/
theorem pyStripL_sublist (l : List Char) : (pyStripL l).Sublist l := by
  unfold pyStripL
  have h1 : (((l.dropWhile isPyWS).reverse.dropWhile isPyWS).reverse).Sublist
      ((l.dropWhile isPyWS).reverse.reverse) :=
    List.reverse_sublist.mpr (List.dropWhile_sublist isPyWS)
  rw [List.reverse_reverse] at h1
  exact h1.trans (List.dropWhile_sublist isPyWS)

/-- Dropping a prefix-failing predicate stops at a blocking element. -/
theorem dropWhile_append_cons {α : Type} (p : α → Bool) (c : α) (hc : p c = false) :
    ∀ (x y : List α), (x ++ c :: y).dropWhile p = x.dropWhile p ++ c :: y
  | [], y => by simp [List.dropWhile_cons, hc]
  | a :: x', y => by
    by_cases hpa : p a = true
    · rw [List.cons_append, List.dropWhile_cons, if_pos hpa, List.dropWhile_cons,
        if_pos hpa]
      exact dropWhile_append_cons p c hc x' y
    · rw [List.cons_append, List.dropWhile_cons, if_neg hpa, List.dropWhile_cons,
        if_neg hpa, List.cons_append]

/-- Trailing-whitespace removal (the second half of Python `strip()`). -/
def rstripL (l : List Char) : List Char := (l.reverse.dropWhile isPyWS).reverse

/-- Stripping is leading-whitespace removal followed by `rstripL`. -/
theorem pyStripL_eq_rstripL (l : List Char) :
    pyStripL l = rstripL (l.dropWhile isPyWS) := rfl

/-- Trailing removal stops at a blocking element. -/
theorem rstripL_append_cons (c : Char) (hc : isPyWS c = false) (x y : List Char) :
    rstripL (x ++ c :: y) = x ++ c :: rstripL y := by
  unfold rstripL
  rw [List.reverse_append, List.reverse_cons, List.append_assoc, List.singleton_append,
    dropWhile_append_cons isPyWS c hc, List.reverse_append, List.reverse_cons,
    List.reverse_reverse, List.append_assoc, List.singleton_append]

/-- Dropping twice is dropping once. -/
theorem dropWhile_twice {α : Type} (p : α → Bool) (l : List α) :
    (l.dropWhile p).dropWhile p = l.dropWhile p := by
  cases hd : l.dropWhile p with
  | nil => rfl
  | cons a t =>
    have hpa : p a = false := head_dropWhile_false p l (by rw [hd]; rfl)
    rw [List.dropWhile_cons, hpa]
    simp

/-- Trailing removal is idempotent. -/
theorem rstripL_twice (l : List Char) : rstripL (rstripL l) = rstripL l := by
  unfold rstripL
  rw [List.reverse_reverse, dropWhile_twice]

/-- An all-whitespace list is wiped by trailing removal. -/
theorem rstripL_of_all_ws (l : List Char) (h : l.dropWhile isPyWS = []) :
    rstripL l = [] := by
  have hall := List.dropWhile_eq_nil_iff.mp h
  unfold rstripL
  rw [List.dropWhile_eq_nil_iff.mpr (fun x hx => hall x (List.mem_reverse.mp hx))]
  rfl

/-- Leading and trailing whitespace removal commute. -/
theorem ltrim_rstripL_comm (l : List Char) :
    (rstripL l).dropWhile isPyWS = rstripL (l.dropWhile isPyWS) := by
  cases hd : l.dropWhile isPyWS with
  | nil =>
    rw [rstripL_of_all_ws l hd]
    rfl
  | cons a t =>
    have hpa : isPyWS a = false := head_dropWhile_false _ l (by rw [hd]; rfl)
    have hsplit : l = l.takeWhile isPyWS ++ a :: t := by
      conv_lhs => rw [← List.takeWhile_append_dropWhile isPyWS l]
      rw [hd]
    have htw : (l.takeWhile isPyWS).dropWhile isPyWS = [] :=
      List.dropWhile_eq_nil_iff.mpr (fun x hx => List.mem_takeWhile_imp hx)
    have hx0 : rstripL (a :: t) = a :: rstripL t := by
      have := rstripL_append_cons a hpa [] t
      simpa using this
    conv_lhs => rw [hsplit]
    rw [rstripL_append_cons a hpa, dropWhile_append_cons isPyWS a hpa, htw,
      List.nil_append, hx0]

/-- Stripping after leading removal strips the original. -/
theorem pyStripL_dropWhile (l : List Char) :
    pyStripL (l.dropWhile isPyWS) = pyStripL l := by
  rw [pyStripL_eq_rstripL, pyStripL_eq_rstripL, dropWhile_twice]

/-- Stripping after trailing removal strips the original. -/
theorem pyStripL_rstripL (l : List Char) :
    pyStripL (rstripL l) = pyStripL l := by
  rw [pyStripL_eq_rstripL, pyStripL_eq_rstripL, ltrim_rstripL_comm, rstripL_twice]

/-- A line that is blank or a comment after stripping is skipped. -/
theorem processLine_skip_comment (m : List (String × String)) (l : String)
    (h : pyStrip l = "" ∨ startsWithChar (pyStrip l) '#' = true) :
    processLine m l = m := by
  unfold processLine
  rcases h with h | h
  · rw [h]
    simp
  · by_cases h0 : pyStrip l = ""
    · rw [h0]; simp
    · rw [if_pos]
      simp [h0, h]

/-- A line with no `=` is skipped. -/
theorem processLine_skip_no_eq (m : List (String × String)) (l : String)
    (h : l.data.contains '=' = false) : processLine m l = m := by
  unfold processLine
  by_cases h0 : pyStrip l = "" || startsWithChar (pyStrip l) '#'
  · rw [if_pos h0]
  · rw [if_neg h0, if_neg]
    intro hc
    have hmem : '=' ∈ (pyStrip l).data := by
      have : List.elem '=' (pyStrip l).data = true := hc
      exact List.elem_iff.mp this
    have hmem2 : '=' ∈ l.data := (pyStripL_sublist l.data).mem hmem
    have : l.data.contains '=' = true := List.elem_iff.mpr hmem2
    rw [h] at this
    exact Bool.false_ne_true this

/-- Splitting at the first occurrence: when the key part contains no
separator, `splitFirstL` cuts exactly at the inserted separator. -/
theorem splitFirstL_first (c : Char) :
    ∀ (k v : List Char), k.contains c = false → splitFirstL c (k ++ c :: v) = (k, v)
  | [], v, _ => by simp [splitFirstL]
  | a :: k', v, h => by
    have h' := h
    rw [List.contains_cons] at h'
    have h2 : k'.contains c = false := by
      cases hk : k'.contains c
      · rfl
      · rw [hk] at h'
        simp at h'
    have hne : ¬(a = c) := by
      intro he
      subst he
      simp at h'
    have ih := splitFirstL_first c k' v h2
    rw [List.cons_append]
    simp only [splitFirstL, if_neg hne, ih]

/-- A value wholly wrapped in matching double or single quotes has exactly
one quote layer stripped. -/
theorem stripQuotes_wrapped (s : String) (q : Char) (hq : q = '"' ∨ q = '\'') :
    stripQuotes ⟨q :: s.data ++ [q]⟩ = s := by
  have hend : ∀ c : Char, endsWithChar ⟨q :: s.data ++ [q]⟩ c = decide (q = c) := by
    intro c
    unfold endsWithChar
    have hlast : (q :: s.data ++ [q]).getLast? = some q := List.getLast?_concat _
    show (match (q :: s.data ++ [q]).getLast? with
      | some a => decide (a = c)
      | none => false) = decide (q = c)
    rw [hlast]
  have hslice : sliceEnds ⟨q :: s.data ++ [q]⟩ = s := by
    apply String.ext
    show ((q :: s.data ++ [q]).drop 1).dropLast = s.data
    show (s.data ++ [q]).dropLast = s.data
    exact List.dropLast_concat
  rcases hq with hq | hq <;> subst hq
  · unfold stripQuotes
    rw [hend]
    have hsw : startsWithChar ⟨'"' :: s.data ++ ['"']⟩ '"' = true := rfl
    rw [hsw]
    simpa using hslice
  · unfold stripQuotes
    rw [hend '"', hend '\'']
    have hsw1 : startsWithChar ⟨'\'' :: s.data ++ ['\'']⟩ '"' = false := rfl
    have hsw2 : startsWithChar ⟨'\'' :: s.data ++ ['\'']⟩ '\'' = true := rfl
    rw [hsw1, hsw2]
    simpa using hslice

/-- A value not wrapped in matching quotes is returned unchanged. -/
theorem stripQuotes_id (v : String)
    (h1 : startsWithChar v '"' = false ∨ endsWithChar v '"' = false)
    (h2 : startsWithChar v '\'' = false ∨ endsWithChar v '\'' = false) :
    stripQuotes v = v := by
  unfold stripQuotes
  rcases h1 with h1 | h1 <;> rcases h2 with h2 | h2 <;> simp [h1, h2]

/-- Processing any line `K=V` (first `=` inside `K ++ "=" ++ V`) assigns the
whitespace-trimmed key the quote-stripped, whitespace-trimmed value: the
whole line is stripped first, the split happens at the first `=`, and key
and value are stripped again, so leading whitespace of `K` and trailing
whitespace of `V` fold into the line strip while the inner whitespace is
removed by the key/value strips. -/
theorem processLine_kv_general (m : List (String × String)) (K V : String)
    (hKeq : K.data.contains '=' = false)
    (hKhash : startsWithChar (pyStrip K) '#' = false) :
    processLine m (K ++ "=" ++ V) = envSet m (pyStrip K) (stripQuotes (pyStrip V)) := by
  have hdata : (K ++ "=" ++ V).data = K.data ++ '=' :: V.data := by
    rw [String.data_append, String.data_append, List.append_assoc]
    rfl
  have hstrip : (pyStrip (K ++ "=" ++ V)).data =
      K.data.dropWhile isPyWS ++ '=' :: rstripL V.data := by
    show pyStripL (K ++ "=" ++ V).data = _
    rw [hdata, pyStripL_eq_rstripL, dropWhile_append_cons isPyWS '=' (by decide),
      rstripL_append_cons '=' (by decide)]
  have hne : ¬(pyStrip (K ++ "=" ++ V) = "") := by
    intro h
    have h2 := congrArg String.data h
    rw [hstrip] at h2
    simp at h2
  have hhash : startsWithChar (pyStrip (K ++ "=" ++ V)) '#' = false := by
    unfold startsWithChar
    rw [hstrip]
    cases hlt : K.data.dropWhile isPyWS with
    | nil => rfl
    | cons a t =>
      have hpa : isPyWS a = false := head_dropWhile_false _ K.data (by rw [hlt]; rfl)
      have hkd : (pyStrip K).data = a :: rstripL t := by
        show pyStripL K.data = _
        rw [pyStripL_eq_rstripL, hlt]
        simpa using rstripL_append_cons a hpa [] t
      unfold startsWithChar at hKhash
      rw [hkd] at hKhash
      simpa using hKhash
  have hltK : (K.data.dropWhile isPyWS).contains '=' = false := by
    cases hc : (K.data.dropWhile isPyWS).contains '=' with
    | false => rfl
    | true =>
      have hmem : '=' ∈ K.data.dropWhile isPyWS := List.elem_iff.mp hc
      have hmem2 : '=' ∈ K.data := (List.dropWhile_sublist isPyWS).mem hmem
      have h4 : K.data.contains '=' = true := List.elem_iff.mpr hmem2
      rw [hKeq] at h4
      exact absurd h4 (by simp)
  have hcontains : (pyStrip (K ++ "=" ++ V)).data.contains '=' = true := by
    apply List.elem_iff.mpr
    rw [hstrip]
    exact List.mem_append_right _ (List.mem_cons_self _ _)
  have hsplit : splitFirstL '=' (pyStrip (K ++ "=" ++ V)).data =
      (K.data.dropWhile isPyWS, rstripL V.data) := by
    rw [hstrip]
    exact splitFirstL_first '=' _ _ hltK
  have hK2 : pyStrip ⟨K.data.dropWhile isPyWS⟩ = pyStrip K :=
    String.ext (pyStripL_dropWhile K.data)
  have hV2 : pyStrip ⟨rstripL V.data⟩ = pyStrip V := String.ext (pyStripL_rstripL V.data)
  unfold processLine
  rw [if_neg, if_pos hcontains, hsplit]
  · show envSet m (pyStrip ⟨K.data.dropWhile isPyWS⟩)
        (stripQuotes (pyStrip ⟨rstripL V.data⟩)) = _
    rw [hK2, hV2]
  · simp [hne, hhash]

/-- C7: the environment-file reader yields an empty mapping on a missing
file; blank and comment lines are skipped; lines lacking `=` are ignored
without affecting other keys; any line `K=V` (the first `=` splitting it
into a `K` free of `=` and a remainder `V`, both with arbitrary surrounding
whitespace) maps the whitespace-trimmed key to the whitespace-trimmed value
with exactly one layer of wholly-wrapping matching quotes removed (unwrapped
values are kept verbatim after trimming). -/
theorem c7_load_env_file :
    (∀ lines, load_env_file false lines = []) ∧
    (∀ pre post l, (pyStrip l = "" ∨ startsWithChar (pyStrip l) '#' = true) →
      load_env_file true (pre ++ l :: post) = load_env_file true (pre ++ post)) ∧
    (∀ pre post l, l.data.contains '=' = false →
      load_env_file true (pre ++ l :: post) = load_env_file true (pre ++ post)) ∧
    (∀ lines K V, K.data.contains '=' = false →
      startsWithChar (pyStrip K) '#' = false →
      load_env_file true (lines ++ [K ++ "=" ++ V]) =
        envSet (load_env_file true lines) (pyStrip K) (stripQuotes (pyStrip V))) ∧
    (∀ (s : String) (q : Char), q = '"' ∨ q = '\'' →
      stripQuotes ⟨q :: s.data ++ [q]⟩ = s) ∧
    (∀ v : String, (startsWithChar v '"' = false ∨ endsWithChar v '"' = false) →
      (startsWithChar v '\'' = false ∨ endsWithChar v '\'' = false) →
      stripQuotes v = v) := by
  refine ⟨fun lines => rfl, ?_, ?_, ?_, stripQuotes_wrapped, stripQuotes_id⟩
  · intro pre post l h
    unfold load_env_file
    rw [if_pos rfl, if_pos rfl, List.foldl_append, List.foldl_append, List.foldl_cons,
      processLine_skip_comment _ _ h]
  · intro pre post l h
    unfold load_env_file
    rw [if_pos rfl, if_pos rfl, List.foldl_append, List.foldl_append, List.foldl_cons,
      processLine_skip_no_eq _ _ h]
  · intro lines K V hKeq hKhash
    unfold load_env_file
    rw [if_pos rfl, if_pos rfl, List.foldl_append, List.foldl_cons, List.foldl_nil,
      processLine_kv_general _ K V hKeq hKhash]

/-- Witness for C7 at concrete inputs: a missing file, a skipped comment, an
ignored malformed line, whitespace-padded assignments `A = 1` and
`  KEY = "va lue"  ` whose keys and values get trimmed (and unquoted),
quote stripping, and a verbatim unquoted value. -/
theorem c7_load_env_file_witness :
    load_env_file false ["A=1"] = [] ∧
    load_env_file true (["A=1"] ++ "# note" :: ["B=2"]) =
      load_env_file true (["A=1"] ++ ["B=2"]) ∧
    load_env_file true (["A=1"] ++ "BAD LINE" :: []) = load_env_file true (["A=1"] ++ []) ∧
    load_env_file true ([] ++ ["A " ++ "=" ++ " 1"]) =
      envSet (load_env_file true []) (pyStrip "A ") (stripQuotes (pyStrip " 1")) ∧
    load_env_file true ["A = 1"] = [("A", "1")] ∧
    load_env_file true ([] ++ ["  KEY " ++ "=" ++ " \"va lue\"  "]) =
      envSet (load_env_file true []) (pyStrip "  KEY ")
        (stripQuotes (pyStrip " \"va lue\"  ")) ∧
    stripQuotes ⟨'"' :: "va lue".data ++ ['"']⟩ = "va lue" ∧
    stripQuotes "plain" = "plain" := by
  refine ⟨c7_load_env_file.1 ["A=1"], ?_, ?_, ?_, ?_, ?_, ?_, ?_⟩
  · exact c7_load_env_file.2.1 ["A=1"] ["B=2"] "# note" (by decide)
  · exact c7_load_env_file.2.2.1 ["A=1"] [] "BAD LINE" (by decide)
  · exact c7_load_env_file.2.2.2.1 [] "A " " 1" (by decide) (by decide)
  · decide
  · exact c7_load_env_file.2.2.2.1 [] "  KEY " " \"va lue\"  " (by decide) (by decide)
  · exact c7_load_env_file.2.2.2.2.1 "va lue" '"' (Or.inl rfl)
  · exact c7_load_env_file.2.2.2.2.2 "plain" (by decide) (by decide)

/-! Claims C3 and C4: cancellation and unknown-project paths of `cmd_setup`. -/

/-- Reduction of `cmd_setup` when the registry loads and the project is found. -/
theorem cmd_setup_eq_resolved (composeCmd projectRoot projectName : String) (force : Bool)
    (env : SetupEnv) (cfgList : List (String × ProjectConfig)) (pc : ProjectConfig)
    (hc : env.projectsConfig = some cfgList)
    (hp : lookupProj cfgList projectName = some pc) :
    cmd_setup composeCmd projectRoot projectName force env =
      (Effect.print ("Project Setup: " ++ projectName) ::
        (cmd_setup_resolved composeCmd projectRoot projectName force pc env).1,
       (cmd_setup_resolved composeCmd projectRoot projectName force pc env).2) := by
  unfold cmd_setup
  simp only [hc, hp]

/-- Reduction of `cmd_setup` when the project identifier is not registered. -/
theorem cmd_setup_eq_unknown (composeCmd projectRoot projectName : String) (force : Bool)
    (env : SetupEnv) (cfgList : List (String × ProjectConfig))
    (hc : env.projectsConfig = some cfgList)
    (hm : lookupProj cfgList projectName = none) :
    cmd_setup composeCmd projectRoot projectName force env =
      ([Effect.print ("Project Setup: " ++ projectName),
        Effect.print ("Unknown project: " ++ projectName),
        Effect.print ("Available projects: " ++
          String.intercalate ", " (cfgList.map Prod.fst))], false) := by
  unfold cmd_setup
  simp only [hc, hm]

/-- A declined confirmation stops `cmd_setup_with_url` with only the warning
prints, the prompt, and the cancellation message. -/
theorem cmd_setup_with_url_declined (composeCmd projectName : String) (pc : ProjectConfig)
    (mountPoint repoDir repoUrl : String) (env : SetupEnv)
    (hex : env.repoExists1 = true)
    (hconf : lowerStr (pyStrip env.confirmAnswer) ≠ "y") :
    cmd_setup_with_url composeCmd projectName false pc mountPoint repoDir repoUrl env =
      ([Effect.print ("Repository directory already exists: " ++ repoDir),
        Effect.print "This will DELETE the repository and re-clone it. Any uncommitted changes will be lost.",
        Effect.ask "Continue? [y/N]: ",
        Effect.print "Setup cancelled"], false) := by
  unfold cmd_setup_with_url
  rw [hex]
  simp [hconf]

/-- C3: with the repository subdirectory present, the force flag unset and a
non-affirmative confirmation answer, `cmd_setup` reports cancellation and
performs no side effect: its whole trace is prints and prompts (no service
stop, no removal, no clone, no start, no step execution). -/
theorem c3_confirmation_declined (composeCmd projectRoot projectName : String)
    (env : SetupEnv) (cfgList : List (String × ProjectConfig)) (pc : ProjectConfig)
    (hc : env.projectsConfig = some cfgList)
    (hp : lookupProj cfgList projectName = some pc)
    (hurl : (envGet (load_env_file env.envFileExists env.envLines) pc.repo_env_var = "" ∨
             is_placeholder_value (envGet (load_env_file env.envFileExists env.envLines)
               pc.repo_env_var) = true) → pyStrip env.urlAnswer ≠ "")
    (hex : env.repoExists1 = true)
    (hconf : lowerStr (pyStrip env.confirmAnswer) ≠ "y") :
    (cmd_setup composeCmd projectRoot projectName false env).2 = false ∧
    Effect.print "Setup cancelled" ∈
      (cmd_setup composeCmd projectRoot projectName false env).1 ∧
    ∀ e ∈ (cmd_setup composeCmd projectRoot projectName false env).1,
      (∃ s, e = Effect.print s) ∨ (∃ s, e = Effect.ask s) := by
  rw [cmd_setup_eq_resolved composeCmd projectRoot projectName false env cfgList pc hc hp]
  unfold cmd_setup_resolved
  by_cases hu : (envGet (load_env_file env.envFileExists env.envLines) pc.repo_env_var = ""
      || is_placeholder_value (envGet (load_env_file env.envFileExists env.envLines)
        pc.repo_env_var)) = true
  · have hune : ¬(pyStrip env.urlAnswer = "") := by
      apply hurl
      rcases Bool.or_eq_true_iff.mp hu with h | h
      · exact Or.inl (by simpa using h)
      · exact Or.inr h
    rw [if_pos hu, if_neg hune,
      cmd_setup_with_url_declined composeCmd projectName pc _ _ _ env hex hconf]
    refine ⟨rfl, by simp, ?_⟩
    intro e he
    fin_cases he <;> first
      | exact Or.inl ⟨_, rfl⟩
      | exact Or.inr ⟨_, rfl⟩
  · rw [if_neg hu,
      cmd_setup_with_url_declined composeCmd projectName pc _ _ _ env hex hconf]
    refine ⟨rfl, by simp, ?_⟩
    intro e he
    fin_cases he <;> first
      | exact Or.inl ⟨_, rfl⟩
      | exact Or.inr ⟨_, rfl⟩

/-- Concrete project configuration used by the cancellation witness. -/
def pcBackend : ProjectConfig :=
  ⟨"Backend", "REPO_URL", none, "app-backend", none, some ["db"],
   some ["migrate", "seed"], "projects/backend"⟩

/-- Concrete oracle set for the cancellation witness: existing repository
directory, valid repository URL in `.env`, negative confirmation answer. -/
def envDeclined : SetupEnv :=
  ⟨some [("backend", pcBackend)], true, ["REPO_URL=git@host:org/repo.git"], "", "no",
   true, true, RmOutcome.ok, ⟨0, "", ""⟩, ⟨0, "", ""⟩,
   fun _ => ⟨0, "", ""⟩, fun _ => ⟨0, "", ""⟩⟩

/-- Witness for C3: on the concrete declined-confirmation scenario the
procedure cancels with a print/prompt-only trace. -/
theorem c3_confirmation_declined_witness :
    (cmd_setup "docker compose" "/root/dev" "backend" false envDeclined).2 = false ∧
    Effect.print "Setup cancelled" ∈
      (cmd_setup "docker compose" "/root/dev" "backend" false envDeclined).1 ∧
    ∀ e ∈ (cmd_setup "docker compose" "/root/dev" "backend" false envDeclined).1,
      (∃ s, e = Effect.print s) ∨ (∃ s, e = Effect.ask s) :=
  c3_confirmation_declined "docker compose" "/root/dev" "backend" envDeclined
    [("backend", pcBackend)] pcBackend rfl rfl (by decide) rfl (by decide)

/-- C4: an unregistered project identifier makes both `cmd_setup` and the
reduced `cmd_setup_steps` fail immediately, printing the unknown-project
error and the list of known identifiers, with a print-only trace (no stop,
no removal, no clone, no start, no step execution). -/
theorem c4_unknown_project (composeCmd projectRoot projectName : String) (force : Bool)
    (env : SetupEnv) (cfgList : List (String × ProjectConfig))
    (checkProc : ProcOutcome) (stepProc : Nat → ProcOutcome)
    (hc : env.projectsConfig = some cfgList)
    (hm : lookupProj cfgList projectName = none) :
    ((cmd_setup composeCmd projectRoot projectName force env).2 = false ∧
     Effect.print ("Unknown project: " ++ projectName) ∈
       (cmd_setup composeCmd projectRoot projectName force env).1 ∧
     Effect.print ("Available projects: " ++
         String.intercalate ", " (cfgList.map Prod.fst)) ∈
       (cmd_setup composeCmd projectRoot projectName force env).1 ∧
     ∀ e ∈ (cmd_setup composeCmd projectRoot projectName force env).1,
       ∃ s, e = Effect.print s) ∧
    ((cmd_setup_steps (some cfgList) projectName checkProc stepProc).2 = false ∧
     Effect.print ("Unknown project: " ++ projectName) ∈
       (cmd_setup_steps (some cfgList) projectName checkProc stepProc).1 ∧
     Effect.print ("Available projects: " ++
         String.intercalate ", " (cfgList.map Prod.fst)) ∈
       (cmd_setup_steps (some cfgList) projectName checkProc stepProc).1 ∧
     ∀ e ∈ (cmd_setup_steps (some cfgList) projectName checkProc stepProc).1,
       ∃ s, e = Effect.print s) := by
  constructor
  · rw [cmd_setup_eq_unknown composeCmd projectRoot projectName force env cfgList hc hm]
    refine ⟨rfl, by simp, by simp, ?_⟩
    intro e he
    fin_cases he <;> exact ⟨_, rfl⟩
  · have hsteps : cmd_setup_steps (some cfgList) projectName checkProc stepProc =
        ([Effect.print ("Unknown project: " ++ projectName),
          Effect.print ("Available projects: " ++
            String.intercalate ", " (cfgList.map Prod.fst))], false) := by
      unfold cmd_setup_steps
      simp only [hm]
    rw [hsteps]
    refine ⟨rfl, by simp, by simp, ?_⟩
    intro e he
    fin_cases he <;> exact ⟨_, rfl⟩

/-- Witness for C4: requesting the unregistered project `vue` against a
registry containing only `backend`. -/
theorem c4_unknown_project_witness :
    ((cmd_setup "docker compose" "/root/dev" "vue" false envDeclined).2 = false ∧
     Effect.print ("Unknown project: " ++ "vue") ∈
       (cmd_setup "docker compose" "/root/dev" "vue" false envDeclined).1 ∧
     Effect.print ("Available projects: " ++
         String.intercalate ", " ([("backend", pcBackend)].map Prod.fst)) ∈
       (cmd_setup "docker compose" "/root/dev" "vue" false envDeclined).1 ∧
     ∀ e ∈ (cmd_setup "docker compose" "/root/dev" "vue" false envDeclined).1,
       ∃ s, e = Effect.print s) ∧
    ((cmd_setup_steps (some [("backend", pcBackend)]) "vue" ⟨0, "", ""⟩
        (fun _ => ⟨0, "", ""⟩)).2 = false ∧
     Effect.print ("Unknown project: " ++ "vue") ∈
       (cmd_setup_steps (some [("backend", pcBackend)]) "vue" ⟨0, "", ""⟩
         (fun _ => ⟨0, "", ""⟩)).1 ∧
     Effect.print ("Available projects: " ++
         String.intercalate ", " ([("backend", pcBackend)].map Prod.fst)) ∈
       (cmd_setup_steps (some [("backend", pcBackend)]) "vue" ⟨0, "", ""⟩
         (fun _ => ⟨0, "", ""⟩)).1 ∧
     ∀ e ∈ (cmd_setup_steps (some [("backend", pcBackend)]) "vue" ⟨0, "", ""⟩
         (fun _ => ⟨0, "", ""⟩)).1,
       ∃ s, e = Effect.print s) :=
  c4_unknown_project "docker compose" "/root/dev" "vue" false envDeclined
    [("backend", pcBackend)] ⟨0, "", ""⟩ (fun _ => ⟨0, "", ""⟩) rfl (by decide)

/-! Claims C5 and C9: effect characterisation of the full setup flow. -/

/-- Every effect of the destroy phase is a print, the `rmtree` of the
repository subdirectory, or the containerized cleanup command — and the two
removal effects occur only when the subdirectory exists. -/
theorem cmd_setup_destroy_phase_effects (repoDir mountPoint repoSubdir : String)
    (exists2 : Bool) (rm : RmOutcome) (cleanupProc : ProcOutcome) :
    ∀ e ∈ (cmd_setup_destroy_phase repoDir mountPoint repoSubdir exists2 rm cleanupProc).1,
      (∃ s, e = Effect.print s) ∨
      (exists2 = true ∧
        (e = Effect.rmtree repoDir ∨ e = Effect.run (cleanupCmdFor mountPoint repoSubdir))) := by
  intro e he
  cases exists2 with
  | false => simp [cmd_setup_destroy_phase] at he
  | true =>
    cases rm with
    | ok =>
      simp only [cmd_setup_destroy_phase, if_true] at he
      fin_cases he
      · exact Or.inl ⟨_, rfl⟩
      · exact Or.inr ⟨rfl, Or.inl rfl⟩
      · exact Or.inl ⟨_, rfl⟩
    | permError =>
      by_cases hcl : pyTruthy (run_command (cleanupCmdFor mountPoint repoSubdir)
          false false cleanupProc).1 = true
      · simp only [cmd_setup_destroy_phase, if_true, hcl] at he
        fin_cases he
        · exact Or.inl ⟨_, rfl⟩
        · exact Or.inr ⟨rfl, Or.inl rfl⟩
        · exact Or.inl ⟨_, rfl⟩
        · exact Or.inr ⟨rfl, Or.inr rfl⟩
        · exact Or.inl ⟨_, rfl⟩
      · simp only [cmd_setup_destroy_phase, if_true, hcl, if_false] at he
        fin_cases he
        · exact Or.inl ⟨_, rfl⟩
        · exact Or.inr ⟨rfl, Or.inl rfl⟩
        · exact Or.inl ⟨_, rfl⟩
        · exact Or.inr ⟨rfl, Or.inr rfl⟩
        · exact Or.inl ⟨_, rfl⟩
    | otherError msg =>
      simp only [cmd_setup_destroy_phase, if_true] at he
      fin_cases he
      · exact Or.inl ⟨_, rfl⟩
      · exact Or.inr ⟨rfl, Or.inl rfl⟩
      · exact Or.inl ⟨_, rfl⟩

/-- Every effect of the poll loop is a print, a capturing probe, or a sleep. -/
theorem poll_loop_effects (container checkCmd : String) (pollProc : Nat → ProcOutcome) :
    ∀ (fuel i : Nat), ∀ e ∈ (poll_loop container checkCmd pollProc i fuel).1,
      (∃ s, e = Effect.print s) ∨ (∃ c, e = Effect.runCap c) ∨ e = Effect.sleep 2
  | 0, i, e, he => by simp [poll_loop] at he
  | fuel + 1, i, e, he => by
    by_cases hhit : poll_hit (run_command checkCmd true true (pollProc i)).1 container = true
    · simp only [poll_loop, hhit, if_true, List.mem_append, List.mem_cons, List.mem_map,
        List.mem_singleton, List.not_mem_nil, or_false] at he
      rcases he with (h | ⟨s, _, h⟩) | h
      · exact Or.inr (Or.inl ⟨_, h⟩)
      · exact Or.inl ⟨s, h.symm⟩
      · exact Or.inl ⟨_, h⟩
    · simp only [poll_loop, hhit, Bool.false_eq_true, if_false, List.mem_append,
        List.mem_cons, List.mem_map, List.mem_singleton, List.not_mem_nil, or_false] at he
      rcases he with ((h | ⟨s, _, h⟩) | h) | h
      · exact Or.inr (Or.inl ⟨_, h⟩)
      · exact Or.inl ⟨s, h.symm⟩
      · exact Or.inr (Or.inr h)
      · exact poll_loop_effects container checkCmd pollProc fuel (i + 1) e h

/-- Every effect of the poll phase is a print, a capturing probe, or a sleep. -/
theorem cmd_setup_poll_phase_effects (container : String) (pollProc : Nat → ProcOutcome) :
    ∀ e ∈ (cmd_setup_poll_phase container pollProc).1,
      (∃ s, e = Effect.print s) ∨ (∃ c, e = Effect.runCap c) ∨ e = Effect.sleep 2 := by
  intro e he
  by_cases hr : (poll_loop container (psCheckCmd container) pollProc 0 max_retries).2 = true
  · simp only [cmd_setup_poll_phase, hr, if_true, List.mem_cons] at he
    rcases he with h | h
    · exact Or.inl ⟨_, h⟩
    · exact poll_loop_effects container (psCheckCmd container) pollProc max_retries 0 e h
  · simp only [cmd_setup_poll_phase, hr, Bool.false_eq_true, if_false, List.mem_cons,
      List.mem_append, List.mem_singleton, List.not_mem_nil, or_false] at he
    rcases he with (h | h) | h
    · exact Or.inl ⟨_, h⟩
    · exact poll_loop_effects container (psCheckCmd container) pollProc max_retries 0 e h
    · exact Or.inl ⟨_, h⟩

/-- A poll loop that never observes a hit in its budget returns false. -/
theorem poll_loop_never (container checkCmd : String) (pollProc : Nat → ProcOutcome) :
    ∀ (fuel i : Nat),
      (∀ j, i ≤ j → j < i + fuel →
        poll_hit (run_command checkCmd true true (pollProc j)).1 container = false) →
      (poll_loop container checkCmd pollProc i fuel).2 = false
  | 0, i, _ => by simp [poll_loop]
  | fuel + 1, i, h => by
    have h0 : poll_hit (run_command checkCmd true true (pollProc i)).1 container = false :=
      h i (Nat.le_refl i) (by omega)
    have hrec := poll_loop_never container checkCmd pollProc fuel (i + 1)
      (fun j hj1 hj2 => h j (by omega) (by omega))
    simp only [poll_loop, h0, Bool.false_eq_true, if_false]
    exact hrec

/-- A readiness poll that never observes the container running reports a
timeout: the phase returns false and prints the timeout error. -/
theorem cmd_setup_poll_phase_timeout (container : String) (pollProc : Nat → ProcOutcome)
    (hnever : ∀ i, i < max_retries →
      poll_hit (run_command (psCheckCmd container) true true (pollProc i)).1 container
        = false) :
    (cmd_setup_poll_phase container pollProc).2 = false ∧
    Effect.print ("Container " ++ container ++ " failed to start within " ++
        toString (max_retries * 2) ++ "s") ∈ (cmd_setup_poll_phase container pollProc).1 := by
  have hloop : (poll_loop container (psCheckCmd container) pollProc 0 max_retries).2
      = false :=
    poll_loop_never container (psCheckCmd container) pollProc max_retries 0
      (fun j _ hj => hnever j (by omega))
  simp only [cmd_setup_poll_phase, hloop, Bool.false_eq_true, if_false]
  simp

/-- Every effect of the step loop is a print or a `docker exec` of one of
the listed steps. -/
theorem setup_steps_loop_effects (container : String) (stepProc : Nat → ProcOutcome)
    (total : Nat) :
    ∀ (steps : List String) (i : Nat), ∀ e ∈ (setup_steps_loop container stepProc total i steps).1,
      (∃ s, e = Effect.print s) ∨
      (∃ st ∈ steps, e = Effect.run (execCmd container st))
  | [], i, e, he => by simp [setup_steps_loop] at he
  | step :: rest, i, e, he => by
    by_cases hpt : pyTruthy (run_command (execCmd container step) false false (stepProc i)).1
        = true
    · simp only [setup_steps_loop, hpt, if_true, List.mem_append, List.mem_cons,
        List.mem_singleton, List.not_mem_nil, or_false] at he
      rcases he with ((h | h) | h) | h
      · exact Or.inl ⟨_, h⟩
      · rw [h]
        exact Or.inr ⟨step, List.mem_cons_self _ _, rfl⟩
      · exact Or.inl ⟨_, h⟩
      · rcases setup_steps_loop_effects container stepProc total rest (i + 1) e h with
          h' | ⟨st, hst, h'⟩
        · exact Or.inl h'
        · exact Or.inr ⟨st, List.mem_cons_of_mem _ hst, h'⟩
    · simp only [setup_steps_loop, hpt, Bool.false_eq_true, if_false, List.mem_append,
        List.mem_cons, List.mem_singleton, List.not_mem_nil, or_false] at he
      rcases he with (h | h) | h
      · exact Or.inl ⟨_, h⟩
      · rw [h]
        exact Or.inr ⟨step, List.mem_cons_self _ _, rfl⟩
      · exact Or.inl ⟨_, h⟩

/-- Every effect of the step phase is a print or a `docker exec` of a
configured step. -/
theorem cmd_setup_steps_phase_effects (display container : String)
    (stepProc : Nat → ProcOutcome) (steps : List String) :
    ∀ e ∈ (cmd_setup_steps_phase display container stepProc steps).1,
      (∃ s, e = Effect.print s) ∨
      (∃ st ∈ steps, e = Effect.run (execCmd container st)) := by
  intro e he
  by_cases hs : steps.isEmpty
  · simp only [cmd_setup_steps_phase, hs, if_true, List.mem_singleton] at he
    exact Or.inl ⟨_, he⟩
  · by_cases hr : (setup_steps_loop container stepProc steps.length 0 steps).2 = true
    · simp only [cmd_setup_steps_phase, hs, Bool.false_eq_true, if_false, hr, if_true,
        List.mem_cons, List.mem_append, List.mem_singleton, List.not_mem_nil,
        or_false] at he
      rcases he with (h | h) | h | h
      · exact Or.inl ⟨_, h⟩
      · exact setup_steps_loop_effects container stepProc steps.length steps 0 e h
      · exact Or.inl ⟨_, h⟩
      · exact Or.inl ⟨_, h⟩
    · simp only [cmd_setup_steps_phase, hs, Bool.false_eq_true, if_false, hr,
        List.mem_cons] at he
      rcases he with h | h
      · exact Or.inl ⟨_, h⟩
      · exact setup_steps_loop_effects container stepProc steps.length steps 0 e h

/-- The shapes an effect of steps 4-9 of `cmd_setup` can take: a print, the
mount-point `mkdir`, a poll sleep, a capturing probe, the removal of the
repository subdirectory (only when it exists) by `rmtree` or by the
containerized cleanup, a service stop/start, the clone, or (only once the
poll has succeeded) a `docker exec` of a configured setup step. -/
def SetupRunEffect (composeCmd projectName : String) (pc : ProjectConfig)
    (mountPoint repoDir : String) (env : SetupEnv) (e : Effect) : Prop :=
  (∃ s, e = Effect.print s) ∨
  e = Effect.mkdirp mountPoint ∨
  e = Effect.sleep 2 ∨
  (∃ c, e = Effect.runCap c) ∨
  (env.repoExists2 = true ∧
    (e = Effect.rmtree repoDir ∨
     e = Effect.run (cleanupCmdFor mountPoint (pc.repo_subdir.getD "app")))) ∨
  (∃ svc, (svc = pc.compose_service.getD projectName ∨
           svc ∈ pc.related_services.getD []) ∧
    (e = Effect.run (composeCmd ++ " stop " ++ svc) ∨
     e = Effect.run (composeCmd ++ " start " ++ svc))) ∨
  (∃ u, e = Effect.run ("git clone " ++ u)) ∨
  ((cmd_setup_poll_phase pc.container env.pollProc).2 = true ∧
    ∃ st ∈ pc.setup_steps.getD [], e = Effect.run (execCmd pc.container st))

/-- The shapes an effect of the whole `cmd_setup` flow can take: a step 4-9
effect, the URL prompt, or (only without the force flag, for an existing
repository directory) the destructive-action confirmation prompt. -/
def SetupEffectOk (composeCmd projectName : String) (force : Bool) (pc : ProjectConfig)
    (mountPoint repoDir : String) (env : SetupEnv) (e : Effect) : Prop :=
  SetupRunEffect composeCmd projectName pc mountPoint repoDir env e ∨
  e = Effect.ask (pc.repo_env_var ++ " URL: ") ∨
  (env.repoExists1 = true ∧ force = false ∧ e = Effect.ask "Continue? [y/N]: ")

/-- Every effect of steps 4-9 is of one of the listed shapes. -/
theorem cmd_setup_execute_effects (composeCmd projectName : String) (pc : ProjectConfig)
    (mountPoint repoDir repoUrl : String) (env : SetupEnv) :
    ∀ e ∈ (cmd_setup_execute composeCmd projectName pc mountPoint repoDir repoUrl env).1,
      SetupRunEffect composeCmd projectName pc mountPoint repoDir env e := by
  intro e he
  have hstop : ∀ e' ∈ (Effect.print ("Stopping containers: " ++ String.intercalate ", "
        (pc.compose_service.getD projectName :: pc.related_services.getD [])) ::
      (pc.compose_service.getD projectName :: pc.related_services.getD []).map
        (fun s => Effect.run (composeCmd ++ " stop " ++ s))),
      SetupRunEffect composeCmd projectName pc mountPoint repoDir env e' := by
    intro e' he'
    rcases List.mem_cons.mp he' with h | h
    · exact Or.inl ⟨_, h⟩
    · rcases List.mem_map.mp h with ⟨svc, hsvc, h'⟩
      exact Or.inr (Or.inr (Or.inr (Or.inr (Or.inr (Or.inl
        ⟨svc, List.mem_cons.mp hsvc, Or.inl h'.symm⟩)))))
  have hdestroy : ∀ e' ∈ (cmd_setup_destroy_phase repoDir mountPoint
        (pc.repo_subdir.getD "app") env.repoExists2 env.rmOutcome env.cleanupProc).1,
      SetupRunEffect composeCmd projectName pc mountPoint repoDir env e' := by
    intro e' he'
    rcases cmd_setup_destroy_phase_effects repoDir mountPoint (pc.repo_subdir.getD "app")
        env.repoExists2 env.rmOutcome env.cleanupProc e' he' with h | ⟨h2, h⟩
    · exact Or.inl h
    · exact Or.inr (Or.inr (Or.inr (Or.inr (Or.inl ⟨h2, h⟩))))
  have hclone : ∀ e' ∈ [Effect.mkdirp mountPoint,
        Effect.print ("\nCloning repository from: " ++ repoUrl),
        Effect.run ("git clone " ++ (repoUrl ++ (" " ++ repoDir)))],
      SetupRunEffect composeCmd projectName pc mountPoint repoDir env e' := by
    intro e' he'
    fin_cases he'
    · exact Or.inr (Or.inl rfl)
    · exact Or.inl ⟨_, rfl⟩
    · exact Or.inr (Or.inr (Or.inr (Or.inr (Or.inr (Or.inr (Or.inl ⟨_, rfl⟩))))))
  have hstart : ∀ e' ∈ (Effect.print ("Repository cloned to " ++ repoDir) ::
      Effect.print ("\nStarting containers: " ++ String.intercalate ", "
        (pc.compose_service.getD projectName :: pc.related_services.getD [])) ::
      (pc.compose_service.getD projectName :: pc.related_services.getD []).map
        (fun s => Effect.run (composeCmd ++ " start " ++ s))),
      SetupRunEffect composeCmd projectName pc mountPoint repoDir env e' := by
    intro e' he'
    rcases List.mem_cons.mp he' with h | h
    · exact Or.inl ⟨_, h⟩
    rcases List.mem_cons.mp h with h | h
    · exact Or.inl ⟨_, h⟩
    · rcases List.mem_map.mp h with ⟨svc, hsvc, h'⟩
      exact Or.inr (Or.inr (Or.inr (Or.inr (Or.inr (Or.inl
        ⟨svc, List.mem_cons.mp hsvc, Or.inr h'.symm⟩)))))
  have hpoll : ∀ e' ∈ (cmd_setup_poll_phase pc.container env.pollProc).1,
      SetupRunEffect composeCmd projectName pc mountPoint repoDir env e' := by
    intro e' he'
    rcases cmd_setup_poll_phase_effects pc.container env.pollProc e' he' with h | h | h
    · exact Or.inl h
    · exact Or.inr (Or.inr (Or.inr (Or.inl h)))
    · exact Or.inr (Or.inr (Or.inl h))
  by_cases hd : (cmd_setup_destroy_phase repoDir mountPoint (pc.repo_subdir.getD "app")
      env.repoExists2 env.rmOutcome env.cleanupProc).2 = true
  · by_cases hcl : pyTruthy (run_command ("git clone " ++ (repoUrl ++ (" " ++ repoDir)))
        true false env.cloneProc).1 = true
    · by_cases hpp : (cmd_setup_poll_phase pc.container env.pollProc).2 = true
      · simp only [cmd_setup_execute, hd, hcl, hpp, Bool.not_true, Bool.false_eq_true,
          if_false, List.mem_append] at he
        rcases he with ((((h | h) | h) | h) | h) | h
        · exact hstop e h
        · exact hdestroy e h
        · exact hclone e h
        · exact hstart e h
        · exact hpoll e h
        · rcases cmd_setup_steps_phase_effects pc.name pc.container env.stepProc
              (pc.setup_steps.getD []) e h with h' | ⟨st, hst, h'⟩
          · exact Or.inl h'
          · exact Or.inr (Or.inr (Or.inr (Or.inr (Or.inr (Or.inr (Or.inr
              ⟨hpp, st, hst, h'⟩))))))
      · simp only [cmd_setup_execute, hd, hcl, hpp, Bool.not_true, Bool.not_false,
          Bool.false_eq_true, if_false, if_true, List.mem_append] at he
        rcases he with (((h | h) | h) | h) | h
        · exact hstop e h
        · exact hdestroy e h
        · exact hclone e h
        · exact hstart e h
        · exact hpoll e h
    · simp only [cmd_setup_execute, hd, hcl, Bool.not_true, Bool.not_false,
        Bool.false_eq_true, if_false, if_true, List.mem_append,
        List.mem_singleton] at he
      rcases he with ((h | h) | h) | h
      · exact hstop e h
      · exact hdestroy e h
      · exact hclone e h
      · exact Or.inl ⟨_, h⟩
  · simp only [cmd_setup_execute, hd, Bool.not_true, Bool.not_false, Bool.false_eq_true,
      if_false, if_true, List.mem_append] at he
    rcases he with h | h
    · exact hstop e h
    · exact hdestroy e h

/-- Every effect of step 3 onwards is of one of the listed shapes. -/
theorem cmd_setup_with_url_effects (composeCmd projectName : String) (force : Bool)
    (pc : ProjectConfig) (mountPoint repoDir repoUrl : String) (env : SetupEnv) :
    ∀ e ∈ (cmd_setup_with_url composeCmd projectName force pc mountPoint repoDir
        repoUrl env).1,
      SetupEffectOk composeCmd projectName force pc mountPoint repoDir env e := by
  intro e he
  by_cases hq : (env.repoExists1 && !force) = true
  · have hq' := hq
    rw [Bool.and_eq_true] at hq'
    have hex1 : env.repoExists1 = true := hq'.1
    have hf : force = false := by
      have := hq'.2
      simpa using this
    have hconf : ∀ e' ∈ [Effect.print ("Repository directory already exists: " ++ repoDir),
        Effect.print "This will DELETE the repository and re-clone it. Any uncommitted changes will be lost.",
        Effect.ask "Continue? [y/N]: "],
        SetupEffectOk composeCmd projectName force pc mountPoint repoDir env e' := by
      intro e' he'
      fin_cases he'
      · exact Or.inl (Or.inl ⟨_, rfl⟩)
      · exact Or.inl (Or.inl ⟨_, rfl⟩)
      · exact Or.inr (Or.inr ⟨hex1, hf, rfl⟩)
    by_cases hy : lowerStr (pyStrip env.confirmAnswer) = "y"
    · simp only [cmd_setup_with_url, hq, if_true, hy, List.mem_append] at he
      rcases he with h | h
      · exact hconf e h
      · exact Or.inl (cmd_setup_execute_effects composeCmd projectName pc mountPoint
          repoDir repoUrl env e h)
    · simp only [cmd_setup_with_url, hq, if_true, hy, if_false, List.mem_append,
        List.mem_singleton] at he
      rcases he with h | h
      · exact hconf e h
      · exact Or.inl (Or.inl ⟨_, h⟩)
  · simp only [cmd_setup_with_url, hq, Bool.false_eq_true, if_false] at he
    exact Or.inl (cmd_setup_execute_effects composeCmd projectName pc mountPoint repoDir
      repoUrl env e he)

/-- Every effect of step 2 onwards is of one of the listed shapes. -/
theorem cmd_setup_resolved_effects (composeCmd projectRoot projectName : String)
    (force : Bool) (pc : ProjectConfig) (env : SetupEnv) :
    ∀ e ∈ (cmd_setup_resolved composeCmd projectRoot projectName force pc env).1,
      SetupEffectOk composeCmd projectName force pc (pathJoin projectRoot pc.directory)
        (pathJoin (pathJoin projectRoot pc.directory) (pc.repo_subdir.getD "app")) env e := by
  intro e he
  have hask : ∀ e' ∈ [Effect.print (pc.repo_env_var ++ " not set or contains placeholder value"),
      Effect.print ("Please enter the repository URL for " ++ pc.name),
      Effect.ask (pc.repo_env_var ++ " URL: ")],
      SetupEffectOk composeCmd projectName force pc (pathJoin projectRoot pc.directory)
        (pathJoin (pathJoin projectRoot pc.directory) (pc.repo_subdir.getD "app")) env e' := by
    intro e' he'
    fin_cases he'
    · exact Or.inl (Or.inl ⟨_, rfl⟩)
    · exact Or.inl (Or.inl ⟨_, rfl⟩)
    · exact Or.inr (Or.inl rfl)
  by_cases hu : (envGet (load_env_file env.envFileExists env.envLines) pc.repo_env_var = ""
      || is_placeholder_value (envGet (load_env_file env.envFileExists env.envLines)
        pc.repo_env_var)) = true
  · by_cases hz : pyStrip env.urlAnswer = ""
    · simp only [cmd_setup_resolved, hu, if_true, hz, List.mem_append, List.mem_cons,
        List.mem_singleton, List.not_mem_nil, or_false] at he
      rcases he with (h | h) | h | h
      · exact Or.inl (Or.inl ⟨_, h⟩)
      · exact hask e (by simp [h])
      · exact Or.inl (Or.inl ⟨_, h⟩)
      · exact Or.inl (Or.inl ⟨_, h⟩)
    · simp only [cmd_setup_resolved, hu, if_true, hz, if_false, List.mem_append,
        List.mem_cons, List.mem_singleton, List.not_mem_nil, or_false] at he
      rcases he with (h | h) | h
      · exact Or.inl (Or.inl ⟨_, h⟩)
      · exact hask e (by simp [h])
      · exact cmd_setup_with_url_effects composeCmd projectName force pc _ _ _ env e h
  · simp only [cmd_setup_resolved, hu, Bool.false_eq_true, if_false, List.mem_append,
      List.mem_cons, List.mem_singleton, List.not_mem_nil, or_false] at he
    rcases he with h | h
    · exact Or.inl (Or.inl ⟨_, h⟩)
    · exact cmd_setup_with_url_effects composeCmd projectName force pc _ _ _ env e h

/-- Every effect of a resolved `cmd_setup` invocation is of one of the
listed shapes. -/
theorem cmd_setup_effects_all (composeCmd projectRoot projectName : String) (force : Bool)
    (env : SetupEnv) (cfgList : List (String × ProjectConfig)) (pc : ProjectConfig)
    (hc : env.projectsConfig = some cfgList)
    (hp : lookupProj cfgList projectName = some pc) :
    ∀ e ∈ (cmd_setup composeCmd projectRoot projectName force env).1,
      SetupEffectOk composeCmd projectName force pc (pathJoin projectRoot pc.directory)
        (pathJoin (pathJoin projectRoot pc.directory) (pc.repo_subdir.getD "app")) env e := by
  intro e he
  rw [cmd_setup_eq_resolved composeCmd projectRoot projectName force env cfgList pc hc hp]
    at he
  rcases List.mem_cons.mp he with h | h
  · exact Or.inl (Or.inl ⟨_, h⟩)
  · exact cmd_setup_resolved_effects composeCmd projectRoot projectName force pc env e h

/-- A compose stop command is never a `docker exec` step command. -/
theorem stop_ne_exec (cc : String)
    (hcc : cc = "docker compose" ∨ cc = "docker-compose")
    (svc container s : String) : cc ++ " stop " ++ svc ≠ execCmd container s := by
  unfold execCmd
  rcases hcc with h | h <;> subst h
  · exact string_ne_of_append_get ("docker compose" ++ " stop ") svc "docker exec " _ 7
      (by decide) (by decide) (by decide)
  · exact string_ne_of_append_get ("docker-compose" ++ " stop ") svc "docker exec " _ 6
      (by decide) (by decide) (by decide)

/-- A compose start command is never a `docker exec` step command. -/
theorem start_ne_exec (cc : String)
    (hcc : cc = "docker compose" ∨ cc = "docker-compose")
    (svc container s : String) : cc ++ " start " ++ svc ≠ execCmd container s := by
  unfold execCmd
  rcases hcc with h | h <;> subst h
  · exact string_ne_of_append_get ("docker compose" ++ " start ") svc "docker exec " _ 7
      (by decide) (by decide) (by decide)
  · exact string_ne_of_append_get ("docker-compose" ++ " start ") svc "docker exec " _ 6
      (by decide) (by decide) (by decide)

/-- The containerized cleanup command is never a `docker exec` step command. -/
theorem cleanup_ne_exec (mp sub container s : String) :
    cleanupCmdFor mp sub ≠ execCmd container s := by
  unfold execCmd cleanupCmdFor
  exact string_ne_of_append_get "docker run --rm -v " _ "docker exec " _ 7
    (by decide) (by decide) (by decide)

/-- A git clone command is never a `docker exec` step command. -/
theorem clone_ne_exec (u container s : String) :
    "git clone " ++ u ≠ execCmd container s := by
  unfold execCmd
  exact string_ne_of_append_get "git clone " u "docker exec " _ 0
    (by decide) (by decide) (by decide)

/-- The URL prompt is never the destructive-action confirmation prompt. -/
theorem urlprompt_ne_confirm (v : String) : v ++ " URL: " ≠ "Continue? [y/N]: " :=
  string_ne_of_append_rev v " URL: " "Continue? [y/N]: " 5 (by decide) (by decide)

/-- Joining a non-empty relative component produces a strictly longer path,
never the mount point itself. -/
theorem pathJoin_proper (a b : String) (hb : b ≠ "")
    (habs : startsWithChar b '/' = false) :
    pathJoin a b = a ++ "/" ++ b ∧ pathJoin a b ≠ a := by
  have hif : ¬(startsWithChar b '/' = true) := by
    rw [habs]
    simp
  unfold pathJoin
  rw [if_neg hb, if_neg hif]
  refine ⟨rfl, ?_⟩
  intro he
  have hlen := congrArg (fun s : String => s.data.length) he
  simp only [String.data_append, List.length_append] at hlen
  have hb1 : 0 < b.data.length := by
    cases hbd : b.data with
    | nil => exact absurd (String.ext hbd) hb
    | cons x t => simp
  have hone : ("/" : String).data.length = 1 := rfl
  rw [hone] at hlen
  omega

/-- A successful overall result requires a successful readiness poll
(steps 4-9 level). -/
theorem cmd_setup_execute_true_poll (composeCmd projectName : String) (pc : ProjectConfig)
    (mountPoint repoDir repoUrl : String) (env : SetupEnv)
    (h : (cmd_setup_execute composeCmd projectName pc mountPoint repoDir repoUrl env).2
      = true) :
    (cmd_setup_poll_phase pc.container env.pollProc).2 = true := by
  by_cases hd : (cmd_setup_destroy_phase repoDir mountPoint (pc.repo_subdir.getD "app")
      env.repoExists2 env.rmOutcome env.cleanupProc).2 = true
  · by_cases hcl : pyTruthy (run_command ("git clone " ++ (repoUrl ++ (" " ++ repoDir)))
        true false env.cloneProc).1 = true
    · by_cases hpp : (cmd_setup_poll_phase pc.container env.pollProc).2 = true
      · exact hpp
      · simp only [cmd_setup_execute, hd, hcl, hpp, Bool.not_true, Bool.not_false,
          Bool.false_eq_true, if_false, if_true] at h
    · simp only [cmd_setup_execute, hd, hcl, Bool.not_true, Bool.not_false,
        Bool.false_eq_true, if_false, if_true] at h
  · simp only [cmd_setup_execute, hd, Bool.not_true, Bool.not_false, Bool.false_eq_true,
      if_false, if_true] at h

/-- A successful overall result requires a successful readiness poll
(step 3 level). -/
theorem cmd_setup_with_url_true_poll (composeCmd projectName : String) (force : Bool)
    (pc : ProjectConfig) (mountPoint repoDir repoUrl : String) (env : SetupEnv)
    (h : (cmd_setup_with_url composeCmd projectName force pc mountPoint repoDir
        repoUrl env).2 = true) :
    (cmd_setup_poll_phase pc.container env.pollProc).2 = true := by
  by_cases hq : (env.repoExists1 && !force) = true
  · by_cases hy : lowerStr (pyStrip env.confirmAnswer) = "y"
    · simp only [cmd_setup_with_url, hq, if_true, hy] at h
      exact cmd_setup_execute_true_poll composeCmd projectName pc mountPoint repoDir
        repoUrl env h
    · simp only [cmd_setup_with_url, hq, if_true, hy, if_false] at h
      exact absurd h (by simp)
  · simp only [cmd_setup_with_url, hq, Bool.false_eq_true, if_false] at h
    exact cmd_setup_execute_true_poll composeCmd projectName pc mountPoint repoDir
      repoUrl env h

/-- A successful overall result requires a successful readiness poll
(whole `cmd_setup`). -/
theorem cmd_setup_true_poll (composeCmd projectRoot projectName : String) (force : Bool)
    (env : SetupEnv) (cfgList : List (String × ProjectConfig)) (pc : ProjectConfig)
    (hc : env.projectsConfig = some cfgList)
    (hp : lookupProj cfgList projectName = some pc)
    (h : (cmd_setup composeCmd projectRoot projectName force env).2 = true) :
    (cmd_setup_poll_phase pc.container env.pollProc).2 = true := by
  rw [cmd_setup_eq_resolved composeCmd projectRoot projectName force env cfgList pc hc hp]
    at h
  simp only at h
  by_cases hu : (envGet (load_env_file env.envFileExists env.envLines) pc.repo_env_var = ""
      || is_placeholder_value (envGet (load_env_file env.envFileExists env.envLines)
        pc.repo_env_var)) = true
  · by_cases hz : pyStrip env.urlAnswer = ""
    · simp only [cmd_setup_resolved, hu, if_true, hz] at h
      exact absurd h (by simp)
    · simp only [cmd_setup_resolved, hu, if_true, hz, if_false] at h
      exact cmd_setup_with_url_true_poll composeCmd projectName force pc _ _ _ env h
  · simp only [cmd_setup_resolved, hu, Bool.false_eq_true, if_false] at h
    exact cmd_setup_with_url_true_poll composeCmd projectName force pc _ _ _ env h

/-- The destroy phase succeeds when the directory is absent, `rmtree`
succeeds, or the permission-error fallback cleanup exits zero. -/
theorem cmd_setup_destroy_phase_ok (repoDir mountPoint repoSubdir : String)
    (exists2 : Bool) (rm : RmOutcome) (cleanupProc : ProcOutcome)
    (h : exists2 = false ∨ rm = RmOutcome.ok ∨
      (rm = RmOutcome.permError ∧ cleanupProc.returncode = 0)) :
    (cmd_setup_destroy_phase repoDir mountPoint repoSubdir exists2 rm cleanupProc).2
      = true := by
  rcases h with h | h | ⟨h, hrc⟩
  · subst h
    rfl
  · subst h
    cases exists2 <;> rfl
  · subst h
    cases exists2 with
    | false => rfl
    | true =>
      have hcl : pyTruthy (run_command (cleanupCmdFor mountPoint repoSubdir) false false
          cleanupProc).1 = true := by
        simp [run_command, pyTruthy, hrc]
      simp [cmd_setup_destroy_phase, hcl]

/-- With the destroy phase succeeding, the clone exiting zero, and the poll
never observing the container, steps 4-9 report the timeout failure and
print the timeout message. -/
theorem cmd_setup_execute_timeout (composeCmd projectName : String) (pc : ProjectConfig)
    (mountPoint repoDir repoUrl : String) (env : SetupEnv)
    (hreach2 : env.repoExists2 = false ∨ env.rmOutcome = RmOutcome.ok ∨
      (env.rmOutcome = RmOutcome.permError ∧ env.cleanupProc.returncode = 0))
    (hclone : env.cloneProc.returncode = 0)
    (hnever : ∀ i, i < max_retries →
      poll_hit (run_command (psCheckCmd pc.container) true true (env.pollProc i)).1
        pc.container = false) :
    (cmd_setup_execute composeCmd projectName pc mountPoint repoDir repoUrl env).2
      = false ∧
    Effect.print ("Container " ++ pc.container ++ " failed to start within " ++
        toString (max_retries * 2) ++ "s") ∈
      (cmd_setup_execute composeCmd projectName pc mountPoint repoDir repoUrl env).1 := by
  have hd : (cmd_setup_destroy_phase repoDir mountPoint (pc.repo_subdir.getD "app")
      env.repoExists2 env.rmOutcome env.cleanupProc).2 = true :=
    cmd_setup_destroy_phase_ok repoDir mountPoint (pc.repo_subdir.getD "app")
      env.repoExists2 env.rmOutcome env.cleanupProc hreach2
  have hcl : pyTruthy (run_command ("git clone " ++ (repoUrl ++ (" " ++ repoDir)))
      true false env.cloneProc).1 = true := by
    simp [run_command, hclone, pyTruthy]
  have hto := cmd_setup_poll_phase_timeout pc.container env.pollProc hnever
  constructor
  · simp only [cmd_setup_execute, hd, hcl, hto.1, Bool.not_true, Bool.not_false,
      Bool.false_eq_true, if_false, if_true]
  · simp only [cmd_setup_execute, hd, hcl, hto.1, Bool.not_true, Bool.not_false,
      Bool.false_eq_true, if_false, if_true]
    exact List.mem_append_right _ hto.2

/-- Timeout behaviour lifted to step 3 (under a confirmation that lets the
procedure continue). -/
theorem cmd_setup_with_url_timeout (composeCmd projectName : String) (force : Bool)
    (pc : ProjectConfig) (mountPoint repoDir repoUrl : String) (env : SetupEnv)
    (hreach1 : env.repoExists1 = false ∨ force = true ∨
      lowerStr (pyStrip env.confirmAnswer) = "y")
    (hreach2 : env.repoExists2 = false ∨ env.rmOutcome = RmOutcome.ok ∨
      (env.rmOutcome = RmOutcome.permError ∧ env.cleanupProc.returncode = 0))
    (hclone : env.cloneProc.returncode = 0)
    (hnever : ∀ i, i < max_retries →
      poll_hit (run_command (psCheckCmd pc.container) true true (env.pollProc i)).1
        pc.container = false) :
    (cmd_setup_with_url composeCmd projectName force pc mountPoint repoDir repoUrl env).2
      = false ∧
    Effect.print ("Container " ++ pc.container ++ " failed to start within " ++
        toString (max_retries * 2) ++ "s") ∈
      (cmd_setup_with_url composeCmd projectName force pc mountPoint repoDir
        repoUrl env).1 := by
  have hx := cmd_setup_execute_timeout composeCmd projectName pc mountPoint repoDir
    repoUrl env hreach2 hclone hnever
  by_cases hq : (env.repoExists1 && !force) = true
  · have hy : lowerStr (pyStrip env.confirmAnswer) = "y" := by
      rcases hreach1 with h | h | h
      · rw [Bool.and_eq_true] at hq
        rw [h] at hq
        exact absurd hq.1 (by simp)
      · rw [Bool.and_eq_true] at hq
        rw [h] at hq
        exact absurd hq.2 (by simp)
      · exact h
    constructor
    · simp only [cmd_setup_with_url, hq, if_true, hy, hx.1]
    · simp only [cmd_setup_with_url, hq, if_true, hy]
      exact List.mem_append_right _ hx.2
  · constructor
    · simp only [cmd_setup_with_url, hq, Bool.false_eq_true, if_false, hx.1]
    · simp only [cmd_setup_with_url, hq, Bool.false_eq_true, if_false]
      exact hx.2

/-- Timeout behaviour lifted to step 2 (under a repository URL that lets the
procedure continue). -/
theorem cmd_setup_resolved_timeout (composeCmd projectRoot projectName : String)
    (force : Bool) (pc : ProjectConfig) (env : SetupEnv)
    (hurl : (envGet (load_env_file env.envFileExists env.envLines) pc.repo_env_var = "" ∨
             is_placeholder_value (envGet (load_env_file env.envFileExists env.envLines)
               pc.repo_env_var) = true) → pyStrip env.urlAnswer ≠ "")
    (hreach1 : env.repoExists1 = false ∨ force = true ∨
      lowerStr (pyStrip env.confirmAnswer) = "y")
    (hreach2 : env.repoExists2 = false ∨ env.rmOutcome = RmOutcome.ok ∨
      (env.rmOutcome = RmOutcome.permError ∧ env.cleanupProc.returncode = 0))
    (hclone : env.cloneProc.returncode = 0)
    (hnever : ∀ i, i < max_retries →
      poll_hit (run_command (psCheckCmd pc.container) true true (env.pollProc i)).1
        pc.container = false) :
    (cmd_setup_resolved composeCmd projectRoot projectName force pc env).2 = false ∧
    Effect.print ("Container " ++ pc.container ++ " failed to start within " ++
        toString (max_retries * 2) ++ "s") ∈
      (cmd_setup_resolved composeCmd projectRoot projectName force pc env).1 := by
  by_cases hu : (envGet (load_env_file env.envFileExists env.envLines) pc.repo_env_var = ""
      || is_placeholder_value (envGet (load_env_file env.envFileExists env.envLines)
        pc.repo_env_var)) = true
  · have hz : ¬(pyStrip env.urlAnswer = "") := by
      apply hurl
      rcases Bool.or_eq_true_iff.mp hu with h | h
      · exact Or.inl (by simpa using h)
      · exact Or.inr h
    have hx := cmd_setup_with_url_timeout composeCmd projectName force pc
      (pathJoin projectRoot pc.directory)
      (pathJoin (pathJoin projectRoot pc.directory) (pc.repo_subdir.getD "app"))
      (pyStrip env.urlAnswer) env hreach1 hreach2 hclone hnever
    constructor
    · simp only [cmd_setup_resolved, hu, if_true, hz, if_false, hx.1]
    · simp only [cmd_setup_resolved, hu, if_true, hz, if_false]
      exact List.mem_append_right _ hx.2
  · have hx := cmd_setup_with_url_timeout composeCmd projectName force pc
      (pathJoin projectRoot pc.directory)
      (pathJoin (pathJoin projectRoot pc.directory) (pc.repo_subdir.getD "app"))
      (envGet (load_env_file env.envFileExists env.envLines) pc.repo_env_var) env
      hreach1 hreach2 hclone hnever
    constructor
    · simp only [cmd_setup_resolved, hu, Bool.false_eq_true, if_false, hx.1]
    · simp only [cmd_setup_resolved, hu, Bool.false_eq_true, if_false]
      exact List.mem_append_right _ hx.2

/-- C5: when the readiness poll never observes the project's container
running within the fixed attempt budget, `cmd_setup` returns a timeout
failure, prints the distinct timeout error, and never executes any setup
step (`docker exec` of the project's container never appears in the trace);
steps run only after a successful readiness observation. -/
theorem c5_readiness_timeout (composeCmd projectRoot projectName : String) (force : Bool)
    (env : SetupEnv) (cfgList : List (String × ProjectConfig)) (pc : ProjectConfig)
    (hc : env.projectsConfig = some cfgList)
    (hp : lookupProj cfgList projectName = some pc)
    (hcompose : composeCmd = "docker compose" ∨ composeCmd = "docker-compose")
    (hurl : (envGet (load_env_file env.envFileExists env.envLines) pc.repo_env_var = "" ∨
             is_placeholder_value (envGet (load_env_file env.envFileExists env.envLines)
               pc.repo_env_var) = true) → pyStrip env.urlAnswer ≠ "")
    (hreach1 : env.repoExists1 = false ∨ force = true ∨
      lowerStr (pyStrip env.confirmAnswer) = "y")
    (hreach2 : env.repoExists2 = false ∨ env.rmOutcome = RmOutcome.ok ∨
      (env.rmOutcome = RmOutcome.permError ∧ env.cleanupProc.returncode = 0))
    (hclone : env.cloneProc.returncode = 0)
    (hnever : ∀ i, i < max_retries →
      poll_hit (run_command (psCheckCmd pc.container) true true (env.pollProc i)).1
        pc.container = false) :
    (cmd_setup composeCmd projectRoot projectName force env).2 = false ∧
    Effect.print ("Container " ++ pc.container ++ " failed to start within " ++
        toString (max_retries * 2) ++ "s") ∈
      (cmd_setup composeCmd projectRoot projectName force env).1 ∧
    ∀ s, Effect.run (execCmd pc.container s) ∉
      (cmd_setup composeCmd projectRoot projectName force env).1 := by
  have hres := cmd_setup_resolved_timeout composeCmd projectRoot projectName force pc env
    hurl hreach1 hreach2 hclone hnever
  have heq := cmd_setup_eq_resolved composeCmd projectRoot projectName force env cfgList
    pc hc hp
  have hpollfalse : (cmd_setup_poll_phase pc.container env.pollProc).2 = false :=
    (cmd_setup_poll_phase_timeout pc.container env.pollProc hnever).1
  refine ⟨?_, ?_, ?_⟩
  · rw [heq]
    exact hres.1
  · rw [heq]
    exact List.mem_cons_of_mem _ hres.2
  · intro s hmem
    have hok := cmd_setup_effects_all composeCmd projectRoot projectName force env
      cfgList pc hc hp _ hmem
    simp only [SetupEffectOk, SetupRunEffect] at hok
    rcases hok with (hok | hok | hok | hok | hok | hok | hok | hok) | hok | hok
    · rcases hok with ⟨s', h⟩
      simp at h
    · simp at hok
    · simp at hok
    · rcases hok with ⟨c', h⟩
      simp at h
    · rcases hok with ⟨_, h | h⟩
      · simp at h
      · simp only [Effect.run.injEq] at h
        exact cleanup_ne_exec _ _ pc.container s h.symm
    · rcases hok with ⟨svc, _, h | h⟩
      · simp only [Effect.run.injEq] at h
        exact stop_ne_exec composeCmd hcompose svc pc.container s h.symm
      · simp only [Effect.run.injEq] at h
        exact start_ne_exec composeCmd hcompose svc pc.container s h.symm
    · rcases hok with ⟨u, h⟩
      simp only [Effect.run.injEq] at h
      exact clone_ne_exec u pc.container s h.symm
    · rw [hpollfalse] at hok
      exact absurd hok.1 (by simp)
    · simp at hok
    · rcases hok with ⟨_, _, h⟩
      simp at h

/-- Concrete oracle set for the timeout witness: no existing repository
directory, valid URL, clone succeeds, and the probe output never contains
the container name. -/
def envTimeout : SetupEnv :=
  ⟨some [("backend", pcBackend)], true, ["REPO_URL=git@host:org/repo.git"], "", "",
   false, false, RmOutcome.ok, ⟨0, "", ""⟩, ⟨0, "", ""⟩,
   fun _ => ⟨0, "", ""⟩, fun _ => ⟨0, "", ""⟩⟩

/-- Witness for C5 at the concrete never-ready scenario. -/
theorem c5_readiness_timeout_witness :
    (cmd_setup "docker compose" "/root/dev" "backend" true envTimeout).2 = false ∧
    Effect.print ("Container " ++ pcBackend.container ++ " failed to start within " ++
        toString (max_retries * 2) ++ "s") ∈
      (cmd_setup "docker compose" "/root/dev" "backend" true envTimeout).1 ∧
    ∀ s, Effect.run (execCmd pcBackend.container s) ∉
      (cmd_setup "docker compose" "/root/dev" "backend" true envTimeout).1 :=
  c5_readiness_timeout "docker compose" "/root/dev" "backend" true envTimeout
    [("backend", pcBackend)] pcBackend rfl (by decide) (Or.inl rfl) (by decide)
    (Or.inl rfl) (Or.inl rfl) rfl (by decide)

/-- C9: with the force flag set, only the destructive-action confirmation
prompt is suppressed: the confirmation prompt never appears in the trace;
any `rmtree` still targets exactly the repository subdirectory and happens
only when it exists; the repository subdirectory is a proper extension of
the mount point, so the removal never targets the mount point itself; and
every non-capturing command in the trace is a service stop/start, the clone,
the cleanup confined to `/cleanup/<repo_subdir>` under the bind-mounted
mount point, or a configured setup step. -/
theorem c9_force_flag_scope (composeCmd projectRoot projectName : String)
    (env : SetupEnv) (cfgList : List (String × ProjectConfig)) (pc : ProjectConfig)
    (hc : env.projectsConfig = some cfgList)
    (hp : lookupProj cfgList projectName = some pc)
    (hsub : pc.repo_subdir.getD "app" ≠ "")
    (habs : startsWithChar (pc.repo_subdir.getD "app") '/' = false) :
    Effect.ask "Continue? [y/N]: " ∉
      (cmd_setup composeCmd projectRoot projectName true env).1 ∧
    (∀ p, Effect.rmtree p ∈ (cmd_setup composeCmd projectRoot projectName true env).1 →
      p = pathJoin (pathJoin projectRoot pc.directory) (pc.repo_subdir.getD "app") ∧
      env.repoExists2 = true) ∧
    pathJoin (pathJoin projectRoot pc.directory) (pc.repo_subdir.getD "app") ≠
      pathJoin projectRoot pc.directory ∧
    (∀ c, Effect.run c ∈ (cmd_setup composeCmd projectRoot projectName true env).1 →
      (env.repoExists2 = true ∧
        c = cleanupCmdFor (pathJoin projectRoot pc.directory) (pc.repo_subdir.getD "app")) ∨
      (∃ svc, (svc = pc.compose_service.getD projectName ∨
               svc ∈ pc.related_services.getD []) ∧
        (c = composeCmd ++ " stop " ++ svc ∨ c = composeCmd ++ " start " ++ svc)) ∨
      (∃ u, c = "git clone " ++ u) ∨
      (∃ st ∈ pc.setup_steps.getD [], c = execCmd pc.container st)) := by
  refine ⟨?_, ?_, ?_, ?_⟩
  · intro hmem
    have hok := cmd_setup_effects_all composeCmd projectRoot projectName true env
      cfgList pc hc hp _ hmem
    simp only [SetupEffectOk, SetupRunEffect] at hok
    rcases hok with (hok | hok | hok | hok | hok | hok | hok | hok) | hok | hok
    · rcases hok with ⟨s', h⟩
      simp at h
    · simp at hok
    · simp at hok
    · rcases hok with ⟨c', h⟩
      simp at h
    · rcases hok with ⟨_, h | h⟩ <;> simp at h
    · rcases hok with ⟨svc, _, h | h⟩ <;> simp at h
    · rcases hok with ⟨u, h⟩
      simp at h
    · rcases hok with ⟨_, st, _, h⟩
      simp at h
    · simp only [Effect.ask.injEq] at hok
      exact urlprompt_ne_confirm pc.repo_env_var hok.symm
    · exact absurd hok.2.1 (by simp)
  · intro p hmem
    have hok := cmd_setup_effects_all composeCmd projectRoot projectName true env
      cfgList pc hc hp _ hmem
    simp only [SetupEffectOk, SetupRunEffect] at hok
    rcases hok with (hok | hok | hok | hok | hok | hok | hok | hok) | hok | hok
    · rcases hok with ⟨s', h⟩
      simp at h
    · simp at hok
    · simp at hok
    · rcases hok with ⟨c', h⟩
      simp at h
    · rcases hok with ⟨hex2, h | h⟩
      · simp only [Effect.rmtree.injEq] at h
        exact ⟨h, hex2⟩
      · simp at h
    · rcases hok with ⟨svc, _, h | h⟩ <;> simp at h
    · rcases hok with ⟨u, h⟩
      simp at h
    · rcases hok with ⟨_, st, _, h⟩
      simp at h
    · simp at hok
    · exact absurd hok.2.1 (by simp)
  · exact (pathJoin_proper (pathJoin projectRoot pc.directory) (pc.repo_subdir.getD "app")
      hsub habs).2
  · intro c hmem
    have hok := cmd_setup_effects_all composeCmd projectRoot projectName true env
      cfgList pc hc hp _ hmem
    simp only [SetupEffectOk, SetupRunEffect] at hok
    rcases hok with (hok | hok | hok | hok | hok | hok | hok | hok) | hok | hok
    · rcases hok with ⟨s', h⟩
      simp at h
    · simp at hok
    · simp at hok
    · rcases hok with ⟨c', h⟩
      simp at h
    · rcases hok with ⟨hex2, h | h⟩
      · simp at h
      · simp only [Effect.run.injEq] at h
        exact Or.inl ⟨hex2, h⟩
    · rcases hok with ⟨svc, hsvc, h | h⟩
      · simp only [Effect.run.injEq] at h
        exact Or.inr (Or.inl ⟨svc, hsvc, Or.inl h⟩)
      · simp only [Effect.run.injEq] at h
        exact Or.inr (Or.inl ⟨svc, hsvc, Or.inr h⟩)
    · rcases hok with ⟨u, h⟩
      simp only [Effect.run.injEq] at h
      exact Or.inr (Or.inr (Or.inl ⟨u, h⟩))
    · rcases hok with ⟨_, st, hst, h⟩
      simp only [Effect.run.injEq] at h
      exact Or.inr (Or.inr (Or.inr ⟨st, hst, h⟩))
    · simp at hok
    · exact absurd hok.2.1 (by simp)

/-- Witness for C9 at a concrete forced setup over an existing repository
directory. -/
theorem c9_force_flag_scope_witness :
    Effect.ask "Continue? [y/N]: " ∉
      (cmd_setup "docker compose" "/root/dev" "backend" true envDeclined).1 ∧
    (∀ p, Effect.rmtree p ∈
        (cmd_setup "docker compose" "/root/dev" "backend" true envDeclined).1 →
      p = pathJoin (pathJoin "/root/dev" pcBackend.directory)
            (pcBackend.repo_subdir.getD "app") ∧
      envDeclined.repoExists2 = true) ∧
    pathJoin (pathJoin "/root/dev" pcBackend.directory) (pcBackend.repo_subdir.getD "app")
      ≠ pathJoin "/root/dev" pcBackend.directory ∧
    (∀ c, Effect.run c ∈
        (cmd_setup "docker compose" "/root/dev" "backend" true envDeclined).1 →
      (envDeclined.repoExists2 = true ∧
        c = cleanupCmdFor (pathJoin "/root/dev" pcBackend.directory)
              (pcBackend.repo_subdir.getD "app")) ∨
      (∃ svc, (svc = pcBackend.compose_service.getD "backend" ∨
               svc ∈ pcBackend.related_services.getD []) ∧
        (c = "docker compose" ++ " stop " ++ svc ∨
         c = "docker compose" ++ " start " ++ svc)) ∨
      (∃ u, c = "git clone " ++ u) ∨
      (∃ st ∈ pcBackend.setup_steps.getD [], c = execCmd pcBackend.container st)) :=
  c9_force_flag_scope "docker compose" "/root/dev" "backend" envDeclined
    [("backend", pcBackend)] pcBackend rfl (by decide) (by decide) (by decide)
